import Mathlib

/-! Token expectations, diagnostics and string routines of the C compiler.

A shallow embedding of `DevelopmentTools/CCompiler/CompilerInfrastructure.cpp`:
the three diagnostic routines (`RaiseWarning`, `RaiseError`, `RaiseFatalError`),
the two line checks (`ExpectSameLine`, `ExpectEndOfLine`), the five token
expectation routines (`ExpectSpecialSymbol`, `ExpectDelimiter`, `ExpectKeyword`,
`ExpectOperator`, `ExpectIdentifier`) and the string routines (`ReplaceSubstring`,
`EscapeXML`, `EscapeCCharacter`, `EscapeCString`).

Global variables and the standard error stream are threaded explicitly as a
state value; a C++ exception is an outcome of its own, carrying the text of
the exception and the state at the point of the throw.
-/

namespace CompilerInfrastructure

/-! ## Data model -/

/-- Modelled from the spec: `SourceLocation` is declared in a header that is not
among the sources. The routines read its three members `FilePath`, `Line` and
`Column`, the last two being printed as decimal integers. -/
structure SourceLocation where
  FilePath : String
  Line : Int
  Column : Int
deriving DecidableEq, Repr

/-- Modelled from the spec: the enumeration `KeywordTypes` of `CTokens.hpp`
(not among the sources); an enumerator is represented by its integer value. -/
abbrev KeywordTypes := Nat

/-- Modelled from the spec: the enumeration `OperatorTypes` of `CTokens.hpp`
(not among the sources); an enumerator is represented by its integer value. -/
abbrev OperatorTypes := Nat

/-- Modelled from the spec: the enumeration `DelimiterTypes` of `CTokens.hpp`
(not among the sources); an enumerator is represented by its integer value. -/
abbrev DelimiterTypes := Nat

/-- Modelled from the spec: the enumeration `SpecialSymbolTypes` of
`CTokens.hpp` (not among the sources); an enumerator is represented by its
integer value. -/
abbrev SpecialSymbolTypes := Nat

/-- Modelled from the spec: the discriminant `CTokenTypes` reported by
`CToken::Type()`. The source names `SpecialSymbol`, `Delimiter`, `Keyword`,
`Operator` and `Identifier`; the spec adds the literal variant and the
end-of-stream sentinel. -/
inductive CTokenTypes where
  | Identifier
  | Keyword
  | Operator
  | Delimiter
  | SpecialSymbol
  | Literal
  | EndOfFile
deriving DecidableEq, Repr

/-- Modelled from the spec: the token classes of `CTokens.hpp` (not among the
sources). Every token carries a `Location`; the derived classes carry `Name`
(identifier) or `Which` (keyword, operator, delimiter, special symbol). -/
inductive CToken where
  | Identifier (Location : SourceLocation) (Name : String)
  | Keyword (Location : SourceLocation) (Which : KeywordTypes)
  | Operator (Location : SourceLocation) (Which : OperatorTypes)
  | Delimiter (Location : SourceLocation) (Which : DelimiterTypes)
  | SpecialSymbol (Location : SourceLocation) (Which : SpecialSymbolTypes)
  | Literal (Location : SourceLocation) (Value : String)
  | EndOfFile (Location : SourceLocation)
deriving DecidableEq, Repr

/-- The member `Location` of a token. -/
def CToken.Location : CToken → SourceLocation
  | .Identifier l _ => l
  | .Keyword l _ => l
  | .Operator l _ => l
  | .Delimiter l _ => l
  | .SpecialSymbol l _ => l
  | .Literal l _ => l
  | .EndOfFile l => l

/-- The virtual method `CToken::Type()`. -/
def CToken.Type : CToken → CTokenTypes
  | .Identifier _ _ => .Identifier
  | .Keyword _ _ => .Keyword
  | .Operator _ _ => .Operator
  | .Delimiter _ _ => .Delimiter
  | .SpecialSymbol _ _ => .SpecialSymbol
  | .Literal _ _ => .Literal
  | .EndOfFile _ => .EndOfFile

/-- Modelled from the spec: `IsLastToken` of `CTokens.hpp` (not among the
sources) recognises the end-of-stream sentinel. -/
def IsLastToken (T : CToken) : Bool :=
  decide (T.Type = CTokenTypes.EndOfFile)

/-- The global variables the routines read and write (`CompilationErrors`,
`CompilationWarnings`, and `DisableWarnings` of `Globals.hpp`), together with
the text written so far to the standard error stream. The two counters are
`int` variables: their values lie from `INT_MIN` to `INT_MAX`, and the routines
change them by `IntIncrement` only. -/
structure Globals where
  CompilationErrors : Int
  CompilationWarnings : Int
  DisableWarnings : Bool
  cerr : String
deriving DecidableEq, Repr

/-- The state an expectation routine works on: the cursor it receives by
reference and the globals. -/
structure ParserState where
  TokenPosition : Nat
  globals : Globals
deriving DecidableEq, Repr

/-- How a call ends: it returns a value, it throws an exception (the text of
the exception and the state at the throw), or its behaviour is not defined
(an iterator is dereferenced or moved outside the token sequence). -/
inductive Outcome (σ α : Type) where
  | returned (value : α) (after : σ)
  | thrown (what : String) (after : σ)
  | undefined
deriving DecidableEq, Repr

/-- Sequencing of statements: what follows runs only after a normal return. -/
def Outcome.andThen {σ α β : Type} (o : Outcome σ α) (k : α → σ → Outcome σ β) :
    Outcome σ β :=
  match o with
  | .returned v s => k v s
  | .thrown w s => .thrown w s
  | .undefined => .undefined

/-- A call of a diagnostic routine from a routine that also holds a cursor: the
cursor is not touched by the callee. -/
def Outcome.withCursor {α : Type} (TokenPosition : Nat) (o : Outcome Globals α) :
    Outcome ParserState α :=
  match o with
  | .returned v g => .returned v ⟨TokenPosition, g⟩
  | .thrown w g => .thrown w ⟨TokenPosition, g⟩
  | .undefined => .undefined

/-! ## Error handling -/

/-- The largest value of an `int` (32 bits). -/
def INT_MAX : Int := 2147483647

/-- The smallest value of an `int` (32 bits). -/
def INT_MIN : Int := -2147483648

/-- The `int` that a 32-bit machine keeps of an integer result: the result
reduced modulo 2^32 into the range from `INT_MIN` to `INT_MAX`. -/
def IntWrap (x : Int) : Int := (x + 2147483648) % 4294967296 - 2147483648

/-- The statement `Counter++` on an `int`: one more, and from `INT_MAX` the
counter wraps around to `INT_MIN`. -/
def IntIncrement (Counter : Int) : Int := IntWrap (Counter + 1)

def MAXIMUM_ERRORS : Int := 15

def MAXIMUM_WARNINGS : Int := 10

/-- The routine `RaiseWarning`. -/
def RaiseWarning (Location : SourceLocation) (Description : String) (g : Globals) :
    Outcome Globals Unit :=
  let g1 := { g with CompilationWarnings := IntIncrement g.CompilationWarnings }
  -- ignore warning when needed
  if g1.DisableWarnings || decide (g1.CompilationWarnings > MAXIMUM_WARNINGS) then
    .returned () g1
  -- warn if no further warnings will be reported
  else if g1.CompilationWarnings = MAXIMUM_WARNINGS then
    .returned () { g1 with cerr := g1.cerr ++ "warning: maximum warnings have been reached" ++ "\n" }
  -- otherwise report the warning normally
  else
    .returned ()
      { g1 with cerr := g1.cerr ++ Location.FilePath ++ ":" ++ toString Location.Line ++ ":"
                          ++ toString Location.Column ++ ": warning: " ++ Description ++ "\n" }

/-- The routine `RaiseError`. -/
def RaiseError (Location : SourceLocation) (Description : String) (g : Globals) :
    Outcome Globals Unit :=
  let g1 := { g with CompilationErrors := IntIncrement g.CompilationErrors }
  -- stop compilation after maximum errors
  if g1.CompilationErrors ≥ MAXIMUM_ERRORS then
    .thrown "error: maximum errors have been reached" g1
  -- otherwise report the error normally
  else
    .returned ()
      { g1 with cerr := g1.cerr ++ Location.FilePath ++ ":" ++ toString Location.Line ++ ":"
                          ++ toString Location.Column ++ ": error: " ++ Description ++ "\n" }

/-- The routine `RaiseFatalError`. -/
def RaiseFatalError (Location : SourceLocation) (Description : String) (g : Globals) :
    Outcome Globals Unit :=
  -- report the fatal error, then stop compilation
  .thrown "compilation terminated"
    { g with cerr := g.cerr ++ Location.FilePath ++ ":" ++ toString Location.Line ++ ":"
                       ++ toString Location.Column ++ ": fatal error: " ++ Description ++ "\n" }

/-! ## Support functions for tokens -/

/-- The token an iterator designates, when it designates one. -/
def TokenAt (Tokens : List CToken) (TokenPosition : Nat) : Option CToken :=
  Tokens[TokenPosition]?

/-- Modelled from the spec: the expression `*Previous(TokenPosition)`; `Previous`
is declared in `CTokens.hpp`, not among the sources. It yields the token
immediately behind the cursor. At position 0 no previous token exists; the spec
asks for a defined result there and does not fix it, so the token yielded at
position 0 is the parameter `AtStart`. -/
def PreviousToken (AtStart : CToken) (Tokens : List CToken) (TokenPosition : Nat) :
    Option CToken :=
  if TokenPosition = 0 then some AtStart else TokenAt Tokens (TokenPosition - 1)

/-- The first block of every expectation routine: at the end of file the error
is reported at the location of the previous token. -/
def CheckEndOfFile (AtStart : CToken) (Tokens : List CToken)
    (NextToken : CToken) (s : ParserState) :
    Outcome ParserState Unit :=
  if IsLastToken NextToken then
    match PreviousToken AtStart Tokens s.TokenPosition with
    | none => .undefined
    | some Before =>
      (RaiseFatalError Before.Location "unexpected end of file" s.globals).withCursor
        s.TokenPosition
  else
    .returned () s

/-- The routine `ExpectSpecialSymbol`; `SpecialSymbolToString` is declared in
`CTokens.hpp`, not among the sources, and is a parameter. -/
def ExpectSpecialSymbol (SpecialSymbolToString : SpecialSymbolTypes → String)
    (AtStart : CToken) (Tokens : List CToken) (Expected : SpecialSymbolTypes) (s : ParserState) :
    Outcome ParserState Unit :=
  match TokenAt Tokens s.TokenPosition with
  | none => .undefined
  | some NextToken =>
    -- first check for end of file
    (CheckEndOfFile AtStart Tokens NextToken s).andThen fun _ s1 =>
    -- other unexpected cases
    let unexpected : Outcome ParserState Unit :=
      (RaiseFatalError NextToken.Location ("expected " ++ SpecialSymbolToString Expected)
        s1.globals).withCursor s1.TokenPosition
    -- expected case
    match NextToken with
    | .SpecialSymbol _ Which =>
      if Which = Expected then
        -- consume the symbol and exit
        .returned () { s1 with TokenPosition := s1.TokenPosition + 1 }
      else unexpected
    | _ => unexpected

/-- The routine `ExpectDelimiter`; `DelimiterToString` is declared in
`CTokens.hpp`, not among the sources, and is a parameter. -/
def ExpectDelimiter (DelimiterToString : DelimiterTypes → String)
    (AtStart : CToken) (Tokens : List CToken) (Expected : DelimiterTypes) (s : ParserState) :
    Outcome ParserState Unit :=
  match TokenAt Tokens s.TokenPosition with
  | none => .undefined
  | some NextToken =>
    -- first check for end of file
    (CheckEndOfFile AtStart Tokens NextToken s).andThen fun _ s1 =>
    -- other unexpected cases
    let unexpected : Outcome ParserState Unit :=
      (RaiseFatalError NextToken.Location ("expected " ++ DelimiterToString Expected)
        s1.globals).withCursor s1.TokenPosition
    -- expected case
    match NextToken with
    | .Delimiter _ Which =>
      if Which = Expected then
        -- consume the delimiter and exit
        .returned () { s1 with TokenPosition := s1.TokenPosition + 1 }
      else unexpected
    | _ => unexpected

/-- The routine `ExpectKeyword`; `KeywordToString` is declared in
`CTokens.hpp`, not among the sources, and is a parameter. -/
def ExpectKeyword (KeywordToString : KeywordTypes → String)
    (AtStart : CToken) (Tokens : List CToken) (Expected : KeywordTypes) (s : ParserState) :
    Outcome ParserState Unit :=
  match TokenAt Tokens s.TokenPosition with
  | none => .undefined
  | some NextToken =>
    -- first check for end of file
    (CheckEndOfFile AtStart Tokens NextToken s).andThen fun _ s1 =>
    -- other unexpected cases
    let unexpected : Outcome ParserState Unit :=
      (RaiseFatalError NextToken.Location ("expected " ++ KeywordToString Expected)
        s1.globals).withCursor s1.TokenPosition
    -- expected case
    match NextToken with
    | .Keyword _ Which =>
      if Which = Expected then
        -- consume the keyword and exit
        .returned () { s1 with TokenPosition := s1.TokenPosition + 1 }
      else unexpected
    | _ => unexpected

/-- The routine `ExpectOperator`; `OperatorToString` is declared in
`CTokens.hpp`, not among the sources, and is a parameter. -/
def ExpectOperator (OperatorToString : OperatorTypes → String)
    (AtStart : CToken) (Tokens : List CToken) (Expected : OperatorTypes) (s : ParserState) :
    Outcome ParserState Unit :=
  match TokenAt Tokens s.TokenPosition with
  | none => .undefined
  | some NextToken =>
    -- first check for end of file
    (CheckEndOfFile AtStart Tokens NextToken s).andThen fun _ s1 =>
    -- other unexpected cases
    let unexpected : Outcome ParserState Unit :=
      (RaiseFatalError NextToken.Location ("expected " ++ OperatorToString Expected)
        s1.globals).withCursor s1.TokenPosition
    -- expected case
    match NextToken with
    | .Operator _ Which =>
      if Which = Expected then
        -- consume the operator and exit
        .returned () { s1 with TokenPosition := s1.TokenPosition + 1 }
      else unexpected
    | _ => unexpected

/-- The routine `ExpectIdentifier`. -/
def ExpectIdentifier (AtStart : CToken) (Tokens : List CToken) (s : ParserState) :
    Outcome ParserState String :=
  match TokenAt Tokens s.TokenPosition with
  | none => .undefined
  | some NextToken =>
    -- first check for end of file
    (CheckEndOfFile AtStart Tokens NextToken s).andThen fun _ s1 =>
    -- expected case
    match NextToken with
    | .Identifier _ Name =>
      -- consume the identifier and provide the name
      .returned Name { s1 with TokenPosition := s1.TokenPosition + 1 }
    | _ =>
      -- other unexpected cases
      ((RaiseFatalError NextToken.Location "expected identifier"
        s1.globals).withCursor s1.TokenPosition).andThen fun _ s2 =>
      -- avoid compiler warning
      .returned "" s2

/-! ## The shape of a diagnostic and the shared expectation algorithm -/

/-- The spec's shape of a diagnostic, `path:line:col: severity: message`, closed
by the end of the line. -/
def DiagnosticLine (Location : SourceLocation) (Severity Description : String) : String :=
  Location.FilePath ++ ":" ++ toString Location.Line ++ ":" ++ toString Location.Column
    ++ ": " ++ Severity ++ ": " ++ Description ++ "\n"

/-- The globals once a fatal diagnostic has been written: one more line on the
error stream, counters and flag as they were. -/
def Globals.withFatal (g : Globals) (Location : SourceLocation) (Description : String) :
    Globals :=
  { g with cerr := g.cerr ++ DiagnosticLine Location "fatal error" Description }

/-- The spec's shared algorithm of the expectation combinators (its three steps):
the sentinel fails at the previous token, an accepted token is consumed, any
other token fails at its own location. `accept` yields the value handed back
for an accepted token. -/
def SharedExpectation {α : Type} (accept : CToken → Option α) (rendered : String)
    (AtStart : CToken) (Tokens : List CToken) (s : ParserState) : Outcome ParserState α :=
  match TokenAt Tokens s.TokenPosition with
  | none => .undefined
  | some t =>
    if IsLastToken t then
      match PreviousToken AtStart Tokens s.TokenPosition with
      | none => .undefined
      | some b =>
        .thrown "compilation terminated"
          ⟨s.TokenPosition, s.globals.withFatal b.Location "unexpected end of file"⟩
    else
      match accept t with
      | some v => .returned v ⟨s.TokenPosition + 1, s.globals⟩
      | none =>
        .thrown "compilation terminated"
          ⟨s.TokenPosition, s.globals.withFatal t.Location ("expected " ++ rendered)⟩

/-- The tokens `ExpectSpecialSymbol` accepts. -/
def AcceptSpecialSymbol (Expected : SpecialSymbolTypes) : CToken → Option Unit
  | .SpecialSymbol _ Which => if Which = Expected then some () else none
  | _ => none

/-- The tokens `ExpectDelimiter` accepts. -/
def AcceptDelimiter (Expected : DelimiterTypes) : CToken → Option Unit
  | .Delimiter _ Which => if Which = Expected then some () else none
  | _ => none

/-- The tokens `ExpectKeyword` accepts. -/
def AcceptKeyword (Expected : KeywordTypes) : CToken → Option Unit
  | .Keyword _ Which => if Which = Expected then some () else none
  | _ => none

/-- The tokens `ExpectOperator` accepts. -/
def AcceptOperator (Expected : OperatorTypes) : CToken → Option Unit
  | .Operator _ Which => if Which = Expected then some () else none
  | _ => none

/-- The tokens `ExpectIdentifier` accepts, with the name it hands back. -/
def AcceptIdentifier : CToken → Option String
  | .Identifier _ Name => some Name
  | _ => none

/-- The member `Which` of a keyword, operator, delimiter or special symbol
token; the other tokens have none. -/
def CToken.Which : CToken → Option Nat
  | .Keyword _ Which => some Which
  | .Operator _ Which => some Which
  | .Delimiter _ Which => some Which
  | .SpecialSymbol _ Which => some Which
  | _ => none

/-- The member `Name` of an identifier token; the other tokens have none. -/
def CToken.Name : CToken → Option String
  | .Identifier _ Name => some Name
  | _ => none

/-! ## Sample data -/

/-- The globals at the start of a compilation unit: counters reset, warnings
enabled, nothing written yet. -/
def ResetGlobals : Globals := ⟨0, 0, false, ""⟩

/-- Sample enumerators for the scenario of the spec; the numbers stand for the
enumerators of `CTokens.hpp`, which is not among the sources. -/
def SampleIf : KeywordTypes := 0

def SampleOpenParenthesis : DelimiterTypes := 0

def SampleCloseParenthesis : DelimiterTypes := 1

def SampleOpenBrace : DelimiterTypes := 2

/-- A sample rendering of the delimiters above. -/
def SampleDelimiterToString (Which : DelimiterTypes) : String :=
  if Which = SampleOpenParenthesis then "("
  else if Which = SampleCloseParenthesis then ")"
  else "\x7b"

/-- A sample rendering for the other categories: the number of the enumerator. -/
def SampleToString (Which : Nat) : String := toString Which

/-- The token sequence of the spec's scenario, `if ( x )` and the sentinel. -/
def SampleTokens : List CToken :=
  [ .Keyword ⟨"main.c", 1, 1⟩ SampleIf,
    .Delimiter ⟨"main.c", 1, 4⟩ SampleOpenParenthesis,
    .Identifier ⟨"main.c", 1, 5⟩ "x",
    .Delimiter ⟨"main.c", 1, 6⟩ SampleCloseParenthesis,
    .EndOfFile ⟨"main.c", 2, 1⟩ ]

/-- A sample for the token yielded in place of a previous token at position 0:
a token at the start of the file. -/
def SampleAtStart : CToken := .Literal ⟨"main.c", 1, 1⟩ ""

/-- The token sequence that holds the sentinel only. -/
def LoneSentinel : List CToken := [ .EndOfFile ⟨"main.c", 1, 1⟩ ]

/-! ## Runs of diagnostic calls -/

/-- Successive calls of `RaiseError`, one per location and description, in
order; a throw ends the run. -/
def RaiseErrors : List (SourceLocation × String) → Globals → Outcome Globals Unit
  | [], g => .returned () g
  | call :: rest, g =>
    (RaiseError call.1 call.2 g).andThen fun _ g1 => RaiseErrors rest g1

/-- Successive calls of `RaiseWarning`, one per location and description, in
order. -/
def RaiseWarnings : List (SourceLocation × String) → Globals → Outcome Globals Unit
  | [], g => .returned () g
  | call :: rest, g =>
    (RaiseWarning call.1 call.2 g).andThen fun _ g1 => RaiseWarnings rest g1

/-- The texts of a list, one after the other. -/
def ConcatLines : List String → String
  | [] => ""
  | line :: rest => line ++ ConcatLines rest

/-- The spec's account of what the call number `k` of `RaiseWarning` writes when
warnings are enabled: its own line up to the ninth call, the notice at the
tenth, nothing afterwards. -/
def WarningText (k : Nat) (Location : SourceLocation) (Description : String) : String :=
  if k ≤ 9 then DiagnosticLine Location "warning" Description
  else if k = 10 then "warning: maximum warnings have been reached\n"
  else ""

/-- The texts of the calls number `k`, `k + 1`, ... of `RaiseWarning`. -/
def WarningTexts : Nat → List (SourceLocation × String) → String
  | _, [] => ""
  | k, call :: rest => WarningText k call.1 call.2 ++ WarningTexts (k + 1) rest

/-- Fourteen errors, all alike. -/
def FourteenErrors : List (SourceLocation × String) :=
  List.replicate 14 (⟨"main.c", 1, 1⟩, "e")

/-- As many warnings, all alike, as take the warning counter from 0 to
`INT_MAX`. -/
def ManyWarnings : List (SourceLocation × String) :=
  List.replicate 2147483647 (⟨"main.c", 1, 1⟩, "w")

/-- Twelve warnings, all alike. -/
def TwelveWarnings : List (SourceLocation × String) :=
  List.replicate 12 (⟨"main.c", 1, 1⟩, "w")

/-! ## Line checks and runs of expectations -/

/-- Modelled from the spec: `AreInSameLine` of `CTokens.hpp` (not among the
sources) compares the line numbers of the locations of two tokens. -/
def AreInSameLine (T1 T2 : CToken) : Bool :=
  decide (T1.Location.Line = T2.Location.Line)

/-- The routine `ExpectSameLine`. -/
def ExpectSameLine (Start Current : CToken) (g : Globals) : Outcome Globals Unit :=
  if !AreInSameLine Start Current then
    RaiseFatalError Start.Location "unexpected end of line" g
  else
    .returned () g

/-- The routine `ExpectEndOfLine`. -/
def ExpectEndOfLine (Start Current : CToken) (g : Globals) : Outcome Globals Unit :=
  if AreInSameLine Start Current then
    RaiseFatalError Current.Location "uxpected end of line" g
  else
    .returned () g

/-- A call of one of the five expectation routines, with the kind it requests. -/
inductive Expectation where
  | Identifier
  | Keyword (Expected : KeywordTypes)
  | Operator (Expected : OperatorTypes)
  | Delimiter (Expected : DelimiterTypes)
  | SpecialSymbol (Expected : SpecialSymbolTypes)
deriving DecidableEq, Repr

/-- What a token yields to an expectation it satisfies: the name for
`ExpectIdentifier`, no value for the four other routines; nothing when the
token does not satisfy the expectation. -/
def Expectation.accept : Expectation → CToken → Option (Option String)
  | .Identifier, t => (AcceptIdentifier t).map some
  | .Keyword K, t => (AcceptKeyword K t).map fun _ => none
  | .Operator K, t => (AcceptOperator K t).map fun _ => none
  | .Delimiter K, t => (AcceptDelimiter K t).map fun _ => none
  | .SpecialSymbol K, t => (AcceptSpecialSymbol K t).map fun _ => none

/-- The call an expectation stands for; the value is the returned name, if the
routine returns one. -/
def Expectation.call (SpecialSymbolToString : SpecialSymbolTypes → String)
    (DelimiterToString : DelimiterTypes → String)
    (KeywordToString : KeywordTypes → String)
    (OperatorToString : OperatorTypes → String)
    (AtStart : CToken) (Tokens : List CToken) :
    Expectation → ParserState → Outcome ParserState (Option String)
  | .Identifier, s =>
    (ExpectIdentifier AtStart Tokens s).andThen fun Name s1 => .returned (some Name) s1
  | .Keyword K, s =>
    (ExpectKeyword KeywordToString AtStart Tokens K s).andThen fun _ s1 => .returned none s1
  | .Operator K, s =>
    (ExpectOperator OperatorToString AtStart Tokens K s).andThen fun _ s1 => .returned none s1
  | .Delimiter K, s =>
    (ExpectDelimiter DelimiterToString AtStart Tokens K s).andThen fun _ s1 => .returned none s1
  | .SpecialSymbol K, s =>
    (ExpectSpecialSymbol SpecialSymbolToString AtStart Tokens K s).andThen fun _ s1 =>
      .returned none s1

/-- Expectation calls made one after the other on the same cursor, as a grammar
rule makes them; the values returned are collected in order. -/
def RunExpectations (SpecialSymbolToString : SpecialSymbolTypes → String)
    (DelimiterToString : DelimiterTypes → String)
    (KeywordToString : KeywordTypes → String)
    (OperatorToString : OperatorTypes → String)
    (AtStart : CToken) (Tokens : List CToken) :
    List Expectation → ParserState → Outcome ParserState (List (Option String))
  | [], s => .returned [] s
  | e :: rest, s =>
    (e.call SpecialSymbolToString DelimiterToString KeywordToString OperatorToString
      AtStart Tokens s).andThen fun v s1 =>
    (RunExpectations SpecialSymbolToString DelimiterToString KeywordToString
      OperatorToString AtStart Tokens rest s1).andThen fun vs s2 =>
    .returned (v :: vs) s2

/-- The four expectation calls of the spec's scenario. -/
def SampleExpectations : List Expectation :=
  [ .Keyword SampleIf, .Delimiter SampleOpenParenthesis, .Identifier,
    .Delimiter SampleCloseParenthesis ]

/-- The globals a call leaves behind, whether it returned or threw. -/
def GlobalsAfter {α : Type} (o : Outcome Globals α) (g : Globals) : Globals :=
  match o with
  | .returned _ g1 => g1
  | .thrown _ g1 => g1
  | .undefined => g

/-- The globals after successive `RaiseError` calls that are all made, whatever
the outcome of the calls before them. -/
def GlobalsAfterErrors : List (SourceLocation × String) → Globals → Globals
  | [], g => g
  | call :: rest, g => GlobalsAfterErrors rest (GlobalsAfter (RaiseError call.1 call.2 g) g)

/-- Two tokens on line 7 of the same file. -/
def SampleStart : CToken := .Keyword ⟨"main.c", 7, 1⟩ SampleIf

def SampleSameLine : CToken := .Identifier ⟨"main.c", 7, 8⟩ "x"

/-- A token on the line after `SampleStart`. -/
def SampleNextLine : CToken := .Identifier ⟨"main.c", 8, 1⟩ "y"

/-! ## Specific string manipulations -/

/-- A `char` of C++, given by the value of its byte. -/
abbrev CChar := Fin 256

/-- A `std::string`: its characters in order. -/
abbrev CString := List CChar

/-- The `char` of a character literal. -/
def chr (c : Char) : CChar := Fin.ofNat c.toNat

/-- The `std::string` of a string literal. -/
def str (s : String) : CString := s.toList.map chr

/-- The search of `std::string::find` in what remains of the text from
`Position` on: the lowest position at which `Old` starts. -/
def FindIn (Old : CString) : CString → Nat → Option Nat
  | [], Position => if Old.isPrefixOf [] then some Position else none
  | c :: rest, Position =>
    if Old.isPrefixOf (c :: rest) then some Position else FindIn Old rest (Position + 1)

/-- The call `Text.find( Old, Position )` of the standard library: the lowest
position not below `Position` at which `Old` occurs in `Text`, or none (`npos`). -/
def Find (Text Old : CString) (Position : Nat) : Option Nat :=
  if Position ≤ Text.length then FindIn Old (Text.drop Position) Position else none

/-- The call `Text.replace( Position, Count, New )` of the standard library. -/
def Replace (Text : CString) (Position Count : Nat) (New : CString) : CString :=
  Text.take Position ++ New ++ Text.drop (Position + Count)

/-- The loop of `ReplaceSubstring`, from the current `Text` and `Position`; every
evaluation of the loop condition uses one unit of fuel, and there is no result
when the fuel runs out. -/
def ReplaceSubstringLoop (OldSubstring NewSubstring : CString) :
    Nat → CString → Nat → Option CString
  | 0, _, _ => none
  | fuel + 1, Text, Position =>
    match Find Text OldSubstring Position with
    | none => some Text
    | some Found =>
      ReplaceSubstringLoop OldSubstring NewSubstring fuel
        (Replace Text Found OldSubstring.length NewSubstring) (Found + NewSubstring.length)

/-- The routine `ReplaceSubstring`: the text it leaves in `Text`. The loop is
given one evaluation of its condition per character of the text and one more;
with an empty `OldSubstring` the loop never ends and there is no result. -/
def ReplaceSubstring (Text OldSubstring NewSubstring : CString) : Option CString :=
  ReplaceSubstringLoop OldSubstring NewSubstring (Text.length + 1) Text 0

/-- The routine `EscapeXML`. -/
def EscapeXML (Unescaped : CString) : Option CString :=
  -- replace ampersand before anything else
  (ReplaceSubstring Unescaped (str "&") (str "&amp;")).bind fun Escaped1 =>
  (ReplaceSubstring Escaped1 (str "<") (str "&lt;")).bind fun Escaped2 =>
  (ReplaceSubstring Escaped2 (str ">") (str "&gt;")).bind fun Escaped3 =>
  (ReplaceSubstring Escaped3 (str "'") (str "&apos;")).bind fun Escaped4 =>
  ReplaceSubstring Escaped4 (str "\"") (str "&quot;")

def HexChars : CString := str "0123456789ABCDEF"

/-- The routine `EscapeCCharacter`. The index into `HexChars` is a nibble, always
within the sixteen characters. -/
def EscapeCCharacter (c : CChar) : CString :=
  -- non standard ASCII characters are expressed numerically
  if c.val &&& 0x80 ≠ 0 then
    let uc : Nat := c.val
    str "\\x" ++ [HexChars.getD (uc >>> 4) 0] ++ [HexChars.getD (uc &&& 0xF) 0]
  -- the null character is always escaped
  else if c.val = 0 then str "\\x00"
  -- our supported escape sequences
  else if c = chr '\\' then str "\\\\"
  else if c = chr '\"' then str "\\\""
  else if c = chr '\'' then str "\\'"
  else if c = chr '\n' then str "\\n"
  else if c = chr '\r' then str "\\r"
  else if c = chr '\t' then str "\\t"
  else [c]

/-- The routine `EscapeCString`. -/
def EscapeCString (Text : CString) : CString :=
  Text.foldl (fun Escaped c => Escaped ++ EscapeCCharacter c) []

/-! ## What the string routines are specified to compute -/

/-- The text copied from left to right with every occurrence of `Old` met on the
way replaced by `New`: where `Old` starts, `New` is written and the characters
of `Old` are skipped, so occurrences do not overlap and what has been written is
not looked at again. `skip` counts the characters still to be skipped. -/
def ReplaceScan (Old New : CString) : Nat → CString → CString
  | _, [] => []
  | skip + 1, _ :: rest => ReplaceScan Old New skip rest
  | 0, c :: rest =>
    if Old.isPrefixOf (c :: rest) then New ++ ReplaceScan Old New (Old.length - 1) rest
    else c :: ReplaceScan Old New 0 rest

/-- The result the claim gives for `ReplaceSubstring`. -/
def ReplaceAll (Text Old New : CString) : CString := ReplaceScan Old New 0 Text

/-- The entity or character the claim gives for one character of an XML text. -/
def EscapeXMLCharacter (c : CChar) : CString :=
  if c = chr '&' then str "&amp;"
  else if c = chr '<' then str "&lt;"
  else if c = chr '>' then str "&gt;"
  else if c = chr '\'' then str "&apos;"
  else if c = chr '\"' then str "&quot;"
  else [c]

/-- The uppercase hexadecimal digit of a nibble. -/
def UpperHexDigit (n : Nat) : CChar :=
  if n < 10 then Fin.ofNat ((chr '0').val + n)
  else Fin.ofNat ((chr 'A').val + (n - 10))

/-- The value of a hexadecimal digit. -/
def HexValue (h : CChar) : Nat :=
  if (chr 'A').val ≤ h.val then h.val - (chr 'A').val + 10 else h.val - (chr '0').val

/-- The character a letter stands for after a backslash. -/
def UnescapeLetter (b : CChar) : CChar :=
  if b = chr 'n' then chr '\n'
  else if b = chr 'r' then chr '\r'
  else if b = chr 't' then chr '\t'
  else b

/-- The reading of one escaped character at the head of a text: the character
and what follows it. It is the inverse used to show that escaped texts can be
decoded; the sources have no such routine. -/
def UnescapeHead : CString → Option (CChar × CString)
  | [] => none
  | a :: rest =>
    if a = chr '\\' then
      match rest with
      | [] => none
      | b :: rest1 =>
        if b = chr 'x' then
          match rest1 with
          | h :: l :: rest2 => some (Fin.ofNat (16 * HexValue h + HexValue l), rest2)
          | _ => none
        else some (UnescapeLetter b, rest1)
    else some (a, rest)

/-! ## Lemmas on the diagnostics -/

theorem RaiseFatalError_eq (Location : SourceLocation) (Description : String) (g : Globals) :
    RaiseFatalError Location Description g
      = .thrown "compilation terminated" (g.withFatal Location Description) := by
  simp [RaiseFatalError, Globals.withFatal, DiagnosticLine, String.append_assoc]

/-! ## Every expectation routine runs the shared algorithm -/

theorem ExpectSpecialSymbol_eq_shared (R : SpecialSymbolTypes → String)
    (AtStart : CToken) (Tokens : List CToken)
    (K : SpecialSymbolTypes) (s : ParserState) :
    ExpectSpecialSymbol R AtStart Tokens K s
      = SharedExpectation (AcceptSpecialSymbol K) (R K) AtStart Tokens s := by
  cases ht : TokenAt Tokens s.TokenPosition with
  | none => simp [ExpectSpecialSymbol, SharedExpectation, ht]
  | some t =>
    cases hp : PreviousToken AtStart Tokens s.TokenPosition <;> cases t <;>
      simp [ExpectSpecialSymbol, SharedExpectation, ht, hp, CheckEndOfFile, IsLastToken, CToken.Type,
        Outcome.andThen, Outcome.withCursor, RaiseFatalError_eq, AcceptSpecialSymbol] <;>
      split <;> rfl

theorem ExpectDelimiter_eq_shared (R : DelimiterTypes → String)
    (AtStart : CToken) (Tokens : List CToken)
    (K : DelimiterTypes) (s : ParserState) :
    ExpectDelimiter R AtStart Tokens K s
      = SharedExpectation (AcceptDelimiter K) (R K) AtStart Tokens s := by
  cases ht : TokenAt Tokens s.TokenPosition with
  | none => simp [ExpectDelimiter, SharedExpectation, ht]
  | some t =>
    cases hp : PreviousToken AtStart Tokens s.TokenPosition <;> cases t <;>
      simp [ExpectDelimiter, SharedExpectation, ht, hp, CheckEndOfFile, IsLastToken, CToken.Type,
        Outcome.andThen, Outcome.withCursor, RaiseFatalError_eq, AcceptDelimiter] <;>
      split <;> rfl

theorem ExpectKeyword_eq_shared (R : KeywordTypes → String)
    (AtStart : CToken) (Tokens : List CToken)
    (K : KeywordTypes) (s : ParserState) :
    ExpectKeyword R AtStart Tokens K s
      = SharedExpectation (AcceptKeyword K) (R K) AtStart Tokens s := by
  cases ht : TokenAt Tokens s.TokenPosition with
  | none => simp [ExpectKeyword, SharedExpectation, ht]
  | some t =>
    cases hp : PreviousToken AtStart Tokens s.TokenPosition <;> cases t <;>
      simp [ExpectKeyword, SharedExpectation, ht, hp, CheckEndOfFile, IsLastToken, CToken.Type,
        Outcome.andThen, Outcome.withCursor, RaiseFatalError_eq, AcceptKeyword] <;>
      split <;> rfl

theorem ExpectOperator_eq_shared (R : OperatorTypes → String)
    (AtStart : CToken) (Tokens : List CToken)
    (K : OperatorTypes) (s : ParserState) :
    ExpectOperator R AtStart Tokens K s
      = SharedExpectation (AcceptOperator K) (R K) AtStart Tokens s := by
  cases ht : TokenAt Tokens s.TokenPosition with
  | none => simp [ExpectOperator, SharedExpectation, ht]
  | some t =>
    cases hp : PreviousToken AtStart Tokens s.TokenPosition <;> cases t <;>
      simp [ExpectOperator, SharedExpectation, ht, hp, CheckEndOfFile, IsLastToken, CToken.Type,
        Outcome.andThen, Outcome.withCursor, RaiseFatalError_eq, AcceptOperator] <;>
      split <;> rfl

theorem ExpectIdentifier_eq_shared (AtStart : CToken) (Tokens : List CToken) (s : ParserState) :
    ExpectIdentifier AtStart Tokens s = SharedExpectation AcceptIdentifier "identifier" AtStart Tokens s := by
  cases ht : TokenAt Tokens s.TokenPosition with
  | none => simp [ExpectIdentifier, SharedExpectation, ht]
  | some t =>
    cases hp : PreviousToken AtStart Tokens s.TokenPosition <;> cases t <;>
      simp [ExpectIdentifier, SharedExpectation, ht, hp, CheckEndOfFile, IsLastToken,
        CToken.Type, Outcome.andThen, Outcome.withCursor, RaiseFatalError_eq, AcceptIdentifier]

/-! ## Lemmas on the accepted tokens -/

theorem AcceptSpecialSymbol_some (K : SpecialSymbolTypes) (t : CToken) (v : Unit) :
    AcceptSpecialSymbol K t = some v ↔ ∃ l, t = CToken.SpecialSymbol l K := by
  cases t <;> simp [AcceptSpecialSymbol]

theorem AcceptDelimiter_some (K : DelimiterTypes) (t : CToken) (v : Unit) :
    AcceptDelimiter K t = some v ↔ ∃ l, t = CToken.Delimiter l K := by
  cases t <;> simp [AcceptDelimiter]

theorem AcceptKeyword_some (K : KeywordTypes) (t : CToken) (v : Unit) :
    AcceptKeyword K t = some v ↔ ∃ l, t = CToken.Keyword l K := by
  cases t <;> simp [AcceptKeyword]

theorem AcceptOperator_some (K : OperatorTypes) (t : CToken) (v : Unit) :
    AcceptOperator K t = some v ↔ ∃ l, t = CToken.Operator l K := by
  cases t <;> simp [AcceptOperator]

theorem AcceptIdentifier_some (t : CToken) (Name : String) :
    AcceptIdentifier t = some Name ↔ ∃ l, t = CToken.Identifier l Name := by
  cases t <;> simp [AcceptIdentifier]

theorem AcceptSpecialSymbol_none (K : SpecialSymbolTypes) (t : CToken) :
    AcceptSpecialSymbol K t = none ↔ ∀ l, t ≠ CToken.SpecialSymbol l K := by
  cases t <;> simp [AcceptSpecialSymbol]

theorem AcceptDelimiter_none (K : DelimiterTypes) (t : CToken) :
    AcceptDelimiter K t = none ↔ ∀ l, t ≠ CToken.Delimiter l K := by
  cases t <;> simp [AcceptDelimiter]

theorem AcceptKeyword_none (K : KeywordTypes) (t : CToken) :
    AcceptKeyword K t = none ↔ ∀ l, t ≠ CToken.Keyword l K := by
  cases t <;> simp [AcceptKeyword]

theorem AcceptOperator_none (K : OperatorTypes) (t : CToken) :
    AcceptOperator K t = none ↔ ∀ l, t ≠ CToken.Operator l K := by
  cases t <;> simp [AcceptOperator]

theorem AcceptIdentifier_none (t : CToken) :
    AcceptIdentifier t = none ↔ t.Type ≠ CTokenTypes.Identifier := by
  cases t <;> simp [AcceptIdentifier, CToken.Type]

/-! ## Lemmas on the shared algorithm -/

theorem PreviousToken_of_pos (AtStart : CToken) (Tokens : List CToken) (n : Nat) (h : 0 < n) :
    PreviousToken AtStart Tokens n = TokenAt Tokens (n - 1) := by
  have hn : n ≠ 0 := Nat.pos_iff_ne_zero.mp h
  simp [PreviousToken, hn]

theorem TokenAt_before (Tokens : List CToken) (n : Nat) (t : CToken)
    (h : TokenAt Tokens n = some t) : ∃ b, TokenAt Tokens (n - 1) = some b := by
  unfold TokenAt at *
  have hlt : n < Tokens.length := by
    by_contra hge
    rw [List.getElem?_eq_none (Nat.le_of_not_lt hge)] at h
    cases h
  exact ⟨Tokens[n - 1], List.getElem?_eq_getElem (by omega)⟩

theorem shared_returned {α : Type} (accept : CToken → Option α) (rendered : String)
    (AtStart : CToken) (Tokens : List CToken) (s s' : ParserState) (v : α)
    (h : SharedExpectation accept rendered AtStart Tokens s = .returned v s') :
    s' = ⟨s.TokenPosition + 1, s.globals⟩ ∧
      ∃ t, TokenAt Tokens s.TokenPosition = some t ∧ IsLastToken t = false ∧
        accept t = some v := by
  unfold SharedExpectation at h
  cases ht : TokenAt Tokens s.TokenPosition with
  | none => simp [ht] at h
  | some t =>
    cases hl : IsLastToken t with
    | true =>
      cases hp : PreviousToken AtStart Tokens s.TokenPosition <;> simp [ht, hl, hp] at h
    | false =>
      cases ha : accept t with
      | none => simp [ht, hl, ha] at h
      | some w =>
        simp [ht, hl, ha] at h
        exact ⟨h.2.symm, t, rfl, hl, by rw [ha, h.1]⟩

theorem shared_accepts {α : Type} (accept : CToken → Option α) (rendered : String)
    (AtStart : CToken) (Tokens : List CToken) (s : ParserState) (t : CToken) (v : α)
    (ht : TokenAt Tokens s.TokenPosition = some t) (hl : IsLastToken t = false)
    (ha : accept t = some v) :
    SharedExpectation accept rendered AtStart Tokens s
      = .returned v ⟨s.TokenPosition + 1, s.globals⟩ := by
  simp [SharedExpectation, ht, hl, ha]

theorem shared_endOfFile {α : Type} (accept : CToken → Option α) (rendered : String)
    (AtStart : CToken) (Tokens : List CToken) (s : ParserState) (t b : CToken)
    (hpos : 0 < s.TokenPosition)
    (ht : TokenAt Tokens s.TokenPosition = some t) (hl : IsLastToken t = true)
    (hb : TokenAt Tokens (s.TokenPosition - 1) = some b) :
    SharedExpectation accept rendered AtStart Tokens s
      = .thrown "compilation terminated"
          ⟨s.TokenPosition, s.globals.withFatal b.Location "unexpected end of file"⟩ := by
  simp [SharedExpectation, ht, hl, PreviousToken_of_pos AtStart Tokens _ hpos, hb]

theorem shared_mismatch {α : Type} (accept : CToken → Option α) (rendered : String)
    (AtStart : CToken) (Tokens : List CToken) (s : ParserState) (t : CToken)
    (ht : TokenAt Tokens s.TokenPosition = some t) (hl : IsLastToken t = false)
    (ha : accept t = none) :
    SharedExpectation accept rendered AtStart Tokens s
      = .thrown "compilation terminated"
          ⟨s.TokenPosition, s.globals.withFatal t.Location ("expected " ++ rendered)⟩ := by
  simp [SharedExpectation, ht, hl, ha]

theorem PreviousToken_defined (AtStart : CToken) (Tokens : List CToken) (n : Nat) (t : CToken)
    (ht : TokenAt Tokens n = some t) : ∃ b, PreviousToken AtStart Tokens n = some b := by
  by_cases h0 : n = 0
  · exact ⟨AtStart, by simp [PreviousToken, h0]⟩
  · obtain ⟨b, hb⟩ := TokenAt_before Tokens n t ht
    exact ⟨b, by simp [PreviousToken, h0, hb]⟩

theorem shared_sentinel {α : Type} (accept : CToken → Option α) (rendered : String)
    (AtStart : CToken) (Tokens : List CToken) (s : ParserState) (t b : CToken)
    (ht : TokenAt Tokens s.TokenPosition = some t) (hl : IsLastToken t = true)
    (hb : PreviousToken AtStart Tokens s.TokenPosition = some b) :
    SharedExpectation accept rendered AtStart Tokens s
      = .thrown "compilation terminated"
          ⟨s.TokenPosition, s.globals.withFatal b.Location "unexpected end of file"⟩ := by
  simp [SharedExpectation, ht, hl, hb]

theorem shared_failure {α : Type} (accept : CToken → Option α) (rendered : String)
    (AtStart : CToken) (Tokens : List CToken) (s : ParserState) (t : CToken)
    (ht : TokenAt Tokens s.TokenPosition = some t)
    (hfail : ∀ v s', SharedExpectation accept rendered AtStart Tokens s ≠ .returned v s') :
    ∃ g, SharedExpectation accept rendered AtStart Tokens s
      = .thrown "compilation terminated" ⟨s.TokenPosition, g⟩ := by
  cases hl : IsLastToken t with
  | true =>
    obtain ⟨b, hb⟩ := PreviousToken_defined AtStart Tokens _ t ht
    exact ⟨_, shared_sentinel accept rendered AtStart Tokens s t b ht hl hb⟩
  | false =>
    cases ha : accept t with
    | none => exact ⟨_, shared_mismatch accept rendered AtStart Tokens s t ht hl ha⟩
    | some v => exact absurd (shared_accepts accept rendered AtStart Tokens s t v ht hl ha) (hfail _ _)

theorem Type_Which_SpecialSymbol (K : SpecialSymbolTypes) (t : CToken) :
    (t.Type = CTokenTypes.SpecialSymbol ∧ t.Which = some K) ↔ ∃ l, t = CToken.SpecialSymbol l K := by
  cases t <;> simp [CToken.Type, CToken.Which]

theorem Type_Which_Delimiter (K : DelimiterTypes) (t : CToken) :
    (t.Type = CTokenTypes.Delimiter ∧ t.Which = some K) ↔ ∃ l, t = CToken.Delimiter l K := by
  cases t <;> simp [CToken.Type, CToken.Which]

theorem Type_Which_Keyword (K : KeywordTypes) (t : CToken) :
    (t.Type = CTokenTypes.Keyword ∧ t.Which = some K) ↔ ∃ l, t = CToken.Keyword l K := by
  cases t <;> simp [CToken.Type, CToken.Which]

theorem Type_Which_Operator (K : OperatorTypes) (t : CToken) :
    (t.Type = CTokenTypes.Operator ∧ t.Which = some K) ↔ ∃ l, t = CToken.Operator l K := by
  cases t <;> simp [CToken.Type, CToken.Which]

theorem Type_Name_Identifier (t : CToken) (Name : String) :
    (t.Type = CTokenTypes.Identifier ∧ t.Name = some Name) ↔ ∃ l, t = CToken.Identifier l Name := by
  cases t <;> simp [CToken.Type, CToken.Name]

theorem Type_Identifier_accepted (t : CToken) :
    t.Type = CTokenTypes.Identifier ↔ ∃ Name, AcceptIdentifier t = some Name := by
  cases t <;> simp [CToken.Type, AcceptIdentifier]

/-! ## The expectation routines: success -/

/-- C1: whenever one of the five expectation routines returns normally, the cursor
stands exactly one token further and the globals, the error stream among them,
are what they were before the call: no diagnostic text has been written. -/
theorem expect_success_advances_silently
    (SpecialSymbolToString : SpecialSymbolTypes → String)
    (DelimiterToString : DelimiterTypes → String)
    (KeywordToString : KeywordTypes → String)
    (OperatorToString : OperatorTypes → String)
    (AtStart : CToken) (Tokens : List CToken) (K : Nat) (s s' : ParserState) :
    (∀ Name, ExpectIdentifier AtStart Tokens s = .returned Name s' →
        s'.TokenPosition = s.TokenPosition + 1 ∧ s'.globals.cerr = s.globals.cerr ∧
          s'.globals = s.globals) ∧
    (ExpectKeyword KeywordToString AtStart Tokens K s = .returned () s' →
        s'.TokenPosition = s.TokenPosition + 1 ∧ s'.globals.cerr = s.globals.cerr ∧
          s'.globals = s.globals) ∧
    (ExpectOperator OperatorToString AtStart Tokens K s = .returned () s' →
        s'.TokenPosition = s.TokenPosition + 1 ∧ s'.globals.cerr = s.globals.cerr ∧
          s'.globals = s.globals) ∧
    (ExpectDelimiter DelimiterToString AtStart Tokens K s = .returned () s' →
        s'.TokenPosition = s.TokenPosition + 1 ∧ s'.globals.cerr = s.globals.cerr ∧
          s'.globals = s.globals) ∧
    (ExpectSpecialSymbol SpecialSymbolToString AtStart Tokens K s = .returned () s' →
        s'.TokenPosition = s.TokenPosition + 1 ∧ s'.globals.cerr = s.globals.cerr ∧
          s'.globals = s.globals) := by
  have key : ∀ {α : Type} (accept : CToken → Option α) (r : String) (v : α),
      SharedExpectation accept r AtStart Tokens s = .returned v s' →
        s'.TokenPosition = s.TokenPosition + 1 ∧ s'.globals.cerr = s.globals.cerr ∧
          s'.globals = s.globals := by
    intro α accept r v h
    obtain ⟨rfl, _⟩ := shared_returned accept r AtStart Tokens s s' v h
    exact ⟨rfl, rfl, rfl⟩
  refine ⟨fun Name h => ?_, fun h => ?_, fun h => ?_, fun h => ?_, fun h => ?_⟩
  · rw [ExpectIdentifier_eq_shared] at h; exact key _ _ _ h
  · rw [ExpectKeyword_eq_shared] at h; exact key _ _ _ h
  · rw [ExpectOperator_eq_shared] at h; exact key _ _ _ h
  · rw [ExpectDelimiter_eq_shared] at h; exact key _ _ _ h
  · rw [ExpectSpecialSymbol_eq_shared] at h; exact key _ _ _ h

/-- C1, at the start of the sample sequence: `ExpectKeyword` returns on the
keyword and the postcondition holds at cursor 0. -/
theorem expect_success_advances_silently_witness :
    ExpectKeyword SampleToString SampleAtStart SampleTokens SampleIf ⟨0, ResetGlobals⟩
        = .returned () ⟨1, ResetGlobals⟩ ∧
      ((⟨1, ResetGlobals⟩ : ParserState).TokenPosition
          = (⟨0, ResetGlobals⟩ : ParserState).TokenPosition + 1 ∧
        (⟨1, ResetGlobals⟩ : ParserState).globals.cerr
          = (⟨0, ResetGlobals⟩ : ParserState).globals.cerr ∧
        (⟨1, ResetGlobals⟩ : ParserState).globals = (⟨0, ResetGlobals⟩ : ParserState).globals) :=
  ⟨by rfl,
   (expect_success_advances_silently SampleToString SampleDelimiterToString SampleToString
      SampleToString SampleAtStart SampleTokens SampleIf ⟨0, ResetGlobals⟩ ⟨1, ResetGlobals⟩).2.1 (by rfl)⟩

/-! ## The expectation routines: failure -/

/-- C2: with the cursor on a token of the sequence, each of the five expectation
routines that does not return normally throws `compilation terminated` with the
cursor where it was before the call, on every failure path: the sentinel under
the cursor, at any position, index 0 included, or a token that is not accepted. -/
theorem expect_failure_keeps_cursor
    (SpecialSymbolToString : SpecialSymbolTypes → String)
    (DelimiterToString : DelimiterTypes → String)
    (KeywordToString : KeywordTypes → String)
    (OperatorToString : OperatorTypes → String)
    (AtStart : CToken) (Tokens : List CToken) (K : Nat) (s : ParserState) (t : CToken)
    (ht : TokenAt Tokens s.TokenPosition = some t) :
    ((∀ v s', ExpectIdentifier AtStart Tokens s ≠ .returned v s') →
        ∃ g, ExpectIdentifier AtStart Tokens s
          = .thrown "compilation terminated" ⟨s.TokenPosition, g⟩) ∧
    ((∀ v s', ExpectKeyword KeywordToString AtStart Tokens K s ≠ .returned v s') →
        ∃ g, ExpectKeyword KeywordToString AtStart Tokens K s
          = .thrown "compilation terminated" ⟨s.TokenPosition, g⟩) ∧
    ((∀ v s', ExpectOperator OperatorToString AtStart Tokens K s ≠ .returned v s') →
        ∃ g, ExpectOperator OperatorToString AtStart Tokens K s
          = .thrown "compilation terminated" ⟨s.TokenPosition, g⟩) ∧
    ((∀ v s', ExpectDelimiter DelimiterToString AtStart Tokens K s ≠ .returned v s') →
        ∃ g, ExpectDelimiter DelimiterToString AtStart Tokens K s
          = .thrown "compilation terminated" ⟨s.TokenPosition, g⟩) ∧
    ((∀ v s', ExpectSpecialSymbol SpecialSymbolToString AtStart Tokens K s
          ≠ .returned v s') →
        ∃ g, ExpectSpecialSymbol SpecialSymbolToString AtStart Tokens K s
          = .thrown "compilation terminated" ⟨s.TokenPosition, g⟩) := by
  simp only [ExpectIdentifier_eq_shared, ExpectKeyword_eq_shared, ExpectOperator_eq_shared,
    ExpectDelimiter_eq_shared, ExpectSpecialSymbol_eq_shared]
  exact ⟨shared_failure _ _ AtStart Tokens s t ht, shared_failure _ _ AtStart Tokens s t ht,
    shared_failure _ _ AtStart Tokens s t ht, shared_failure _ _ AtStart Tokens s t ht,
    shared_failure _ _ AtStart Tokens s t ht⟩

/-- C2, on the sequence that holds the sentinel only, with the cursor at index 0:
`ExpectIdentifier` does not return, and it throws with the cursor still at 0. -/
theorem expect_failure_keeps_cursor_witness :
    (TokenAt LoneSentinel 0 = some (.EndOfFile ⟨"main.c", 1, 1⟩) ∧
      ∀ v s', ExpectIdentifier SampleAtStart LoneSentinel ⟨0, ResetGlobals⟩
        ≠ .returned v s') ∧
    ∃ g, ExpectIdentifier SampleAtStart LoneSentinel ⟨0, ResetGlobals⟩
      = .thrown "compilation terminated" ⟨0, g⟩ :=
  have hfail : ∀ v s', ExpectIdentifier SampleAtStart LoneSentinel ⟨0, ResetGlobals⟩
      ≠ .returned v s' := by
    intro v s' h
    simp [ExpectIdentifier, TokenAt, LoneSentinel, CheckEndOfFile, IsLastToken, CToken.Type,
      PreviousToken, Outcome.andThen, Outcome.withCursor, RaiseFatalError] at h
  ⟨⟨rfl, hfail⟩,
   (expect_failure_keeps_cursor SampleToString SampleDelimiterToString SampleToString
      SampleToString SampleAtStart LoneSentinel SampleIf ⟨0, ResetGlobals⟩
      (.EndOfFile ⟨"main.c", 1, 1⟩) rfl).1 hfail⟩

/-- C3: with a token `t` under the cursor, each of the four categorised routines
returns normally exactly when `t` is not the sentinel, its type is the category
of the routine and its `Which` is the requested kind; `ExpectIdentifier` returns
normally exactly when `t` is a non-sentinel identifier, and the string it
returns is the `Name` of `t`. -/
theorem expect_succeeds_iff
    (SpecialSymbolToString : SpecialSymbolTypes → String)
    (DelimiterToString : DelimiterTypes → String)
    (KeywordToString : KeywordTypes → String)
    (OperatorToString : OperatorTypes → String)
    (AtStart : CToken) (Tokens : List CToken) (K : Nat) (s : ParserState) (t : CToken)
    (ht : TokenAt Tokens s.TokenPosition = some t) :
    ((∃ s', ExpectKeyword KeywordToString AtStart Tokens K s = .returned () s') ↔
        (IsLastToken t = false ∧ t.Type = CTokenTypes.Keyword ∧ t.Which = some K)) ∧
    ((∃ s', ExpectOperator OperatorToString AtStart Tokens K s = .returned () s') ↔
        (IsLastToken t = false ∧ t.Type = CTokenTypes.Operator ∧ t.Which = some K)) ∧
    ((∃ s', ExpectDelimiter DelimiterToString AtStart Tokens K s = .returned () s') ↔
        (IsLastToken t = false ∧ t.Type = CTokenTypes.Delimiter ∧ t.Which = some K)) ∧
    ((∃ s', ExpectSpecialSymbol SpecialSymbolToString AtStart Tokens K s = .returned () s') ↔
        (IsLastToken t = false ∧ t.Type = CTokenTypes.SpecialSymbol ∧ t.Which = some K)) ∧
    ((∃ Name s', ExpectIdentifier AtStart Tokens s = .returned Name s') ↔
        (IsLastToken t = false ∧ t.Type = CTokenTypes.Identifier)) ∧
    (∀ Name s', ExpectIdentifier AtStart Tokens s = .returned Name s' → t.Name = some Name) := by
  have key : ∀ {α : Type} (accept : CToken → Option α) (r : String) (v : α),
      (∃ s', SharedExpectation accept r AtStart Tokens s = .returned v s') ↔
        (IsLastToken t = false ∧ accept t = some v) := by
    intro α accept r v
    constructor
    · rintro ⟨s', h⟩
      obtain ⟨_, t', ht', hl, ha⟩ := shared_returned accept r AtStart Tokens s s' v h
      rw [ht] at ht'
      cases ht'
      exact ⟨hl, ha⟩
    · rintro ⟨hl, ha⟩
      exact ⟨_, shared_accepts accept r AtStart Tokens s t v ht hl ha⟩
  simp only [ExpectIdentifier_eq_shared, ExpectKeyword_eq_shared, ExpectOperator_eq_shared,
    ExpectDelimiter_eq_shared, ExpectSpecialSymbol_eq_shared]
  refine ⟨?_, ?_, ?_, ?_, ?_, ?_⟩
  · rw [key, AcceptKeyword_some, Type_Which_Keyword]
  · rw [key, AcceptOperator_some, Type_Which_Operator]
  · rw [key, AcceptDelimiter_some, Type_Which_Delimiter]
  · rw [key, AcceptSpecialSymbol_some, Type_Which_SpecialSymbol]
  · rw [Type_Identifier_accepted]
    constructor
    · rintro ⟨Name, s', h⟩
      obtain ⟨hl, ha⟩ := (key AcceptIdentifier "identifier" Name).mp ⟨s', h⟩
      exact ⟨hl, Name, ha⟩
    · rintro ⟨hl, Name, ha⟩
      obtain ⟨s', h⟩ := (key AcceptIdentifier "identifier" Name).mpr ⟨hl, ha⟩
      exact ⟨Name, s', h⟩
  · intro Name s' h
    obtain ⟨_, ha⟩ := (key AcceptIdentifier "identifier" Name).mp ⟨s', h⟩
    obtain ⟨l, rfl⟩ := (AcceptIdentifier_some t Name).mp ha
    rfl

/-- C3, on the sample sequence with the cursor on the identifier `x`. -/
theorem expect_succeeds_iff_witness :
    TokenAt SampleTokens 2 = some (.Identifier ⟨"main.c", 1, 5⟩ "x") ∧
      ((∃ Name s', ExpectIdentifier SampleAtStart SampleTokens ⟨2, ResetGlobals⟩ = .returned Name s') ↔
        (IsLastToken (.Identifier ⟨"main.c", 1, 5⟩ "x") = false ∧
          (CToken.Identifier ⟨"main.c", 1, 5⟩ "x").Type = CTokenTypes.Identifier)) :=
  ⟨rfl,
   (expect_succeeds_iff SampleToString SampleDelimiterToString SampleToString
      SampleToString SampleAtStart
      SampleTokens SampleIf ⟨2, ResetGlobals⟩ (.Identifier ⟨"main.c", 1, 5⟩ "x")
      rfl).2.2.2.2.1⟩

/-- C4: with the cursor beyond index 0 on the sentinel, each of the five
expectation routines, whatever kind is requested, throws after writing the fatal
diagnostic `unexpected end of file` at the location of the token just before the
cursor; the cursor stays where it was. -/
theorem expect_at_end_of_file
    (SpecialSymbolToString : SpecialSymbolTypes → String)
    (DelimiterToString : DelimiterTypes → String)
    (KeywordToString : KeywordTypes → String)
    (OperatorToString : OperatorTypes → String)
    (AtStart : CToken) (Tokens : List CToken) (K : Nat) (s : ParserState) (t b : CToken)
    (hpos : 0 < s.TokenPosition)
    (ht : TokenAt Tokens s.TokenPosition = some t) (hl : IsLastToken t = true)
    (hb : TokenAt Tokens (s.TokenPosition - 1) = some b) :
    ExpectIdentifier AtStart Tokens s
        = .thrown "compilation terminated"
            ⟨s.TokenPosition,
              s.globals.withFatal b.Location "unexpected end of file"⟩ ∧
    ExpectKeyword KeywordToString AtStart Tokens K s
        = .thrown "compilation terminated"
            ⟨s.TokenPosition,
              s.globals.withFatal b.Location "unexpected end of file"⟩ ∧
    ExpectOperator OperatorToString AtStart Tokens K s
        = .thrown "compilation terminated"
            ⟨s.TokenPosition,
              s.globals.withFatal b.Location "unexpected end of file"⟩ ∧
    ExpectDelimiter DelimiterToString AtStart Tokens K s
        = .thrown "compilation terminated"
            ⟨s.TokenPosition,
              s.globals.withFatal b.Location "unexpected end of file"⟩ ∧
    ExpectSpecialSymbol SpecialSymbolToString AtStart Tokens K s
        = .thrown "compilation terminated"
            ⟨s.TokenPosition,
              s.globals.withFatal b.Location
                "unexpected end of file"⟩ := by
  simp only [ExpectIdentifier_eq_shared, ExpectKeyword_eq_shared, ExpectOperator_eq_shared,
    ExpectDelimiter_eq_shared, ExpectSpecialSymbol_eq_shared]
  exact ⟨shared_endOfFile _ _ AtStart Tokens s t b hpos ht hl hb,
    shared_endOfFile _ _ AtStart Tokens s t b hpos ht hl hb,
    shared_endOfFile _ _ AtStart Tokens s t b hpos ht hl hb,
    shared_endOfFile _ _ AtStart Tokens s t b hpos ht hl hb,
    shared_endOfFile _ _ AtStart Tokens s t b hpos ht hl hb⟩

/-- C4, on the sample sequence with the cursor on the sentinel at index 4: the
location reported is the one of the closing parenthesis at index 3. -/
theorem expect_at_end_of_file_witness :
    (0 < 4 ∧ TokenAt SampleTokens 4 = some (.EndOfFile ⟨"main.c", 2, 1⟩) ∧
      TokenAt SampleTokens (4 - 1) = some (.Delimiter ⟨"main.c", 1, 6⟩ SampleCloseParenthesis)) ∧
    ExpectIdentifier SampleAtStart SampleTokens ⟨4, ResetGlobals⟩
      = .thrown "compilation terminated"
          ⟨4, ResetGlobals.withFatal ⟨"main.c", 1, 6⟩ "unexpected end of file"⟩ :=
  ⟨⟨by decide, rfl, rfl⟩,
   (expect_at_end_of_file SampleToString SampleDelimiterToString SampleToString
      SampleToString SampleAtStart
      SampleTokens SampleIf ⟨4, ResetGlobals⟩ (.EndOfFile ⟨"main.c", 2, 1⟩)
      (.Delimiter ⟨"main.c", 1, 6⟩ SampleCloseParenthesis) (by decide) rfl rfl rfl).1⟩

/-- C5: with a token `t` under the cursor that is not the sentinel and that the
routine does not accept (another category, or another kind of the right
category), the routine throws after writing a fatal diagnostic at the location
of `t` itself, whose message is `expected ` followed by the rendering of the
requested kind, or `expected identifier`; the cursor stays where it was. -/
theorem expect_mismatch
    (SpecialSymbolToString : SpecialSymbolTypes → String)
    (DelimiterToString : DelimiterTypes → String)
    (KeywordToString : KeywordTypes → String)
    (OperatorToString : OperatorTypes → String)
    (AtStart : CToken) (Tokens : List CToken) (K : Nat) (s : ParserState) (t : CToken)
    (ht : TokenAt Tokens s.TokenPosition = some t) (hl : IsLastToken t = false) :
    (¬ (t.Type = CTokenTypes.Keyword ∧ t.Which = some K) →
      ExpectKeyword KeywordToString AtStart Tokens K s
        = .thrown "compilation terminated"
            ⟨s.TokenPosition,
              s.globals.withFatal t.Location ("expected " ++ KeywordToString K)⟩) ∧
    (¬ (t.Type = CTokenTypes.Operator ∧ t.Which = some K) →
      ExpectOperator OperatorToString AtStart Tokens K s
        = .thrown "compilation terminated"
            ⟨s.TokenPosition,
              s.globals.withFatal t.Location ("expected " ++ OperatorToString K)⟩) ∧
    (¬ (t.Type = CTokenTypes.Delimiter ∧ t.Which = some K) →
      ExpectDelimiter DelimiterToString AtStart Tokens K s
        = .thrown "compilation terminated"
            ⟨s.TokenPosition,
              s.globals.withFatal t.Location ("expected " ++ DelimiterToString K)⟩) ∧
    (¬ (t.Type = CTokenTypes.SpecialSymbol ∧ t.Which = some K) →
      ExpectSpecialSymbol SpecialSymbolToString AtStart Tokens K s
        = .thrown "compilation terminated"
            ⟨s.TokenPosition,
              s.globals.withFatal t.Location ("expected " ++ SpecialSymbolToString K)⟩) ∧
    (t.Type ≠ CTokenTypes.Identifier →
      ExpectIdentifier AtStart Tokens s
        = .thrown "compilation terminated"
            ⟨s.TokenPosition,
              s.globals.withFatal t.Location
                "expected identifier"⟩) := by
  simp only [ExpectIdentifier_eq_shared, ExpectKeyword_eq_shared, ExpectOperator_eq_shared,
    ExpectDelimiter_eq_shared, ExpectSpecialSymbol_eq_shared, Type_Which_Keyword,
    Type_Which_Operator, Type_Which_Delimiter, Type_Which_SpecialSymbol, not_exists]
  refine ⟨fun h => ?_, fun h => ?_, fun h => ?_, fun h => ?_, fun h => ?_⟩
  · exact shared_mismatch _ _ AtStart Tokens s t ht hl ((AcceptKeyword_none K t).mpr h)
  · exact shared_mismatch _ _ AtStart Tokens s t ht hl ((AcceptOperator_none K t).mpr h)
  · exact shared_mismatch _ _ AtStart Tokens s t ht hl ((AcceptDelimiter_none K t).mpr h)
  · exact shared_mismatch _ _ AtStart Tokens s t ht hl ((AcceptSpecialSymbol_none K t).mpr h)
  · exact shared_mismatch _ _ AtStart Tokens s t ht hl ((AcceptIdentifier_none t).mpr h)

/-- C5, the scenario of the spec: on the sample sequence `ExpectDelimiter` of the
opening brace meets the keyword at index 0 and throws, the message being
`expected ` and the rendering of the opening brace, the cursor still at 0. -/
theorem expect_mismatch_witness :
    (TokenAt SampleTokens 0 = some (.Keyword ⟨"main.c", 1, 1⟩ SampleIf) ∧
      IsLastToken (.Keyword ⟨"main.c", 1, 1⟩ SampleIf) = false ∧
      ¬ ((CToken.Keyword ⟨"main.c", 1, 1⟩ SampleIf).Type = CTokenTypes.Delimiter ∧
          (CToken.Keyword ⟨"main.c", 1, 1⟩ SampleIf).Which = some SampleOpenBrace)) ∧
    ExpectDelimiter SampleDelimiterToString SampleAtStart SampleTokens SampleOpenBrace ⟨0, ResetGlobals⟩
      = .thrown "compilation terminated"
          ⟨0, ResetGlobals.withFatal ⟨"main.c", 1, 1⟩
                ("expected " ++ SampleDelimiterToString SampleOpenBrace)⟩ :=
  ⟨⟨rfl, rfl, by decide⟩,
   (expect_mismatch SampleToString SampleDelimiterToString SampleToString
      SampleToString SampleAtStart
      SampleTokens SampleOpenBrace ⟨0, ResetGlobals⟩ (.Keyword ⟨"main.c", 1, 1⟩ SampleIf)
      rfl rfl).2.2.1 (by decide)⟩

/-! ## The diagnostics -/

theorem IntIncrement_eq (Counter : Int) (hlow : -2147483648 ≤ Counter)
    (hhigh : Counter < 2147483647) : IntIncrement Counter = Counter + 1 := by
  unfold IntIncrement IntWrap
  omega

theorem IntIncrement_range (Counter : Int) :
    -2147483648 ≤ IntIncrement Counter ∧ IntIncrement Counter ≤ 2147483647 := by
  unfold IntIncrement IntWrap
  omega

theorem RaiseError_below (Location : SourceLocation) (Description : String) (g : Globals)
    (hlow : -2147483648 ≤ g.CompilationErrors) (h : g.CompilationErrors + 1 < 15) :
    RaiseError Location Description g
      = .returned ()
          { g with CompilationErrors := g.CompilationErrors + 1
                   cerr := g.cerr ++ DiagnosticLine Location "error" Description } := by
  have h' : ¬ (MAXIMUM_ERRORS ≤ g.CompilationErrors + 1) := by
    unfold MAXIMUM_ERRORS; omega
  simp [RaiseError, IntIncrement_eq _ hlow (by omega), h', DiagnosticLine,
    String.append_assoc]

theorem RaiseError_capped (Location : SourceLocation) (Description : String) (g : Globals)
    (h : 15 ≤ g.CompilationErrors + 1) (hhigh : g.CompilationErrors < 2147483647) :
    RaiseError Location Description g
      = .thrown "error: maximum errors have been reached"
          { g with CompilationErrors := g.CompilationErrors + 1 } := by
  have h' : MAXIMUM_ERRORS ≤ g.CompilationErrors + 1 := by
    unfold MAXIMUM_ERRORS; omega
  simp [RaiseError, IntIncrement_eq _ (by omega) hhigh, h']

theorem RaiseErrors_below (calls : List (SourceLocation × String)) :
    ∀ (g : Globals) (c : Nat), g.CompilationErrors = c → c + calls.length < 15 →
      ∃ g1, RaiseErrors calls g = .returned () g1 ∧
        g1.CompilationErrors = ((c + calls.length : Nat) : Int) ∧
        g1.CompilationWarnings = g.CompilationWarnings ∧
        g1.DisableWarnings = g.DisableWarnings ∧
        g1.cerr = g.cerr ++
          ConcatLines (calls.map fun call => DiagnosticLine call.1 "error" call.2) := by
  induction calls with
  | nil =>
    intro g c hc _
    exact ⟨g, rfl, by simpa using hc, rfl, rfl, by simp [ConcatLines]⟩
  | cons call rest ih =>
    intro g c hc hlt
    simp only [List.length_cons] at hlt
    have hstep := RaiseError_below call.1 call.2 g (by omega) (by omega)
    obtain ⟨g1, hrun, he, hw, hd, hcerr⟩ :=
      ih { g with CompilationErrors := g.CompilationErrors + 1
                  cerr := g.cerr ++ DiagnosticLine call.1 "error" call.2 } (c + 1)
        (by simp [hc]) (by omega)
    refine ⟨g1, ?_, ?_, hw, hd, ?_⟩
    · simp [RaiseErrors, hstep, Outcome.andThen, hrun]
    · rw [he]; simp only [List.length_cons]; push_cast; ring
    · rw [hcerr]; simp [ConcatLines, String.append_assoc]

/-- C6: from a reset error counter, the call number `k` of `RaiseError`, for
`k` from 1 to 14 (the calls before it having returned, as they do), returns
normally, leaves the counter at `k` and adds to the error stream exactly the
line `path:line:col: error: message` of its own location and message. -/
theorem raiseError_below_cap (before : List (SourceLocation × String))
    (Location : SourceLocation) (Description : String) (g : Globals) (k : Nat)
    (hreset : g.CompilationErrors = 0) (hk : before.length + 1 = k) (hcap : k ≤ 14) :
    ∃ g1, RaiseErrors before g = .returned () g1 ∧
      RaiseError Location Description g1
        = .returned ()
            { g1 with CompilationErrors := (k : Int)
                      cerr := g1.cerr ++ DiagnosticLine Location "error" Description } := by
  obtain ⟨g1, hrun, he, _, _, _⟩ :=
    RaiseErrors_below before g 0 (by simpa using hreset) (by omega)
  refine ⟨g1, hrun, ?_⟩
  have hk' : g1.CompilationErrors + 1 = (k : Int) := by
    rw [he, ← hk]; push_cast; ring
  rw [RaiseError_below Location Description g1 (by omega) (by omega), hk']

/-- C6, for the first call after a reset. -/
theorem raiseError_below_cap_witness :
    (ResetGlobals.CompilationErrors = 0 ∧ ([] : List (SourceLocation × String)).length + 1 = 1 ∧
      1 ≤ 14) ∧
    ∃ g1, RaiseErrors [] ResetGlobals = .returned () g1 ∧
      RaiseError ⟨"main.c", 3, 7⟩ "undeclared name" g1
        = .returned ()
            { g1 with CompilationErrors := ((1 : Nat) : Int)
                      cerr := g1.cerr
                        ++ DiagnosticLine ⟨"main.c", 3, 7⟩ "error" "undeclared name" } :=
  ⟨⟨rfl, rfl, by decide⟩,
   raiseError_below_cap [] ⟨"main.c", 3, 7⟩ "undeclared name" ResetGlobals 1 rfl rfl
     (by decide)⟩

/-- C7, as amended: from a reset error counter, the fifteenth call of
`RaiseError` throws; the exception carries the text `error: maximum errors have
been reached`, the counter stands at 15, and the call writes nothing at all to
the error stream, neither the line of the error in flight nor the notice. -/
theorem raiseError_at_cap (before : List (SourceLocation × String))
    (Location : SourceLocation) (Description : String) (g : Globals)
    (hreset : g.CompilationErrors = 0) (hk : before.length = 14) :
    ∃ g1, RaiseErrors before g = .returned () g1 ∧
      RaiseError Location Description g1
        = .thrown "error: maximum errors have been reached"
            { g1 with CompilationErrors := 15 } := by
  obtain ⟨g1, hrun, he, _, _, _⟩ :=
    RaiseErrors_below before g 0 (by simpa using hreset) (by omega)
  refine ⟨g1, hrun, ?_⟩
  have hk' : g1.CompilationErrors + 1 = 15 := by
    rw [he, hk]; norm_num
  rw [RaiseError_capped Location Description g1 (by omega) (by omega), hk']

/-- C7 as amended, after fourteen errors all alike. -/
theorem raiseError_at_cap_witness :
    (ResetGlobals.CompilationErrors = 0 ∧ FourteenErrors.length = 14) ∧
    ∃ g1, RaiseErrors FourteenErrors ResetGlobals = .returned () g1 ∧
      RaiseError ⟨"main.c", 9, 2⟩ "one too many" g1
        = .thrown "error: maximum errors have been reached"
            { g1 with CompilationErrors := 15 } :=
  ⟨⟨rfl, rfl⟩,
   raiseError_at_cap FourteenErrors ⟨"main.c", 9, 2⟩ "one too many" ResetGlobals rfl rfl⟩

/-- C7 as stated fails: after fourteen errors from a reset counter, the
fifteenth call throws and the error stream is what it was before the call, so
the call has not printed the notice that the maximum has been reached. -/
theorem raiseError_cap_prints_nothing :
    ∃ g1 g2, RaiseErrors FourteenErrors ResetGlobals = .returned () g1 ∧
      RaiseError ⟨"main.c", 9, 2⟩ "one too many" g1
        = .thrown "error: maximum errors have been reached" g2 ∧
      g2.cerr = g1.cerr := by
  obtain ⟨g1, hrun, he, _, _, _⟩ :=
    RaiseErrors_below FourteenErrors ResetGlobals 0 rfl (by decide)
  have hlen : FourteenErrors.length = 14 := rfl
  have he14 : g1.CompilationErrors = 14 := by
    rw [he, hlen]; norm_num
  exact ⟨g1, _, hrun, RaiseError_capped _ _ g1 (by omega) (by omega), rfl⟩

/-- C8: whatever the counters and the flag, `RaiseFatalError` adds exactly the
line `path:line:col: fatal error: message` of its location and message to the
error stream, touches nothing else and throws `compilation terminated`; it never
returns normally. -/
theorem raiseFatalError_always (Location : SourceLocation) (Description : String)
    (g : Globals) :
    RaiseFatalError Location Description g
        = .thrown "compilation terminated"
            { g with cerr := g.cerr ++ DiagnosticLine Location "fatal error" Description } ∧
      ∀ g1, RaiseFatalError Location Description g ≠ .returned () g1 := by
  have h := RaiseFatalError_eq Location Description g
  refine ⟨h, fun g1 hg => ?_⟩
  rw [h] at hg
  cases hg

theorem RaiseWarning_enabled (Location : SourceLocation) (Description : String) (g : Globals)
    (c : Nat) (henabled : g.DisableWarnings = false) (hc : g.CompilationWarnings = c)
    (hhigh : c < 2147483647) :
    RaiseWarning Location Description g
      = .returned ()
          { g with CompilationWarnings := ((c + 1 : Nat) : Int)
                   cerr := g.cerr ++ WarningText (c + 1) Location Description } := by
  have hinc : IntIncrement (c : Int) = (c : Int) + 1 :=
    IntIncrement_eq _ (by omega) (by omega)
  unfold RaiseWarning WarningText MAXIMUM_WARNINGS
  simp only [henabled, hc, hinc, Bool.false_or, decide_eq_true_eq]
  by_cases h9 : c + 1 ≤ 9
  · have h1 : ¬ ((c : Int) + 1 > 10) := by omega
    have h2 : ¬ ((c : Int) + 1 = 10) := by omega
    simp [h1, h2, h9, DiagnosticLine, String.append_assoc]
  · by_cases h10 : c + 1 = 10
    · have h1 : ¬ ((c : Int) + 1 > 10) := by omega
      have h2 : (c : Int) + 1 = 10 := by omega
      simp [h1, h2, h9, h10, String.append_assoc]
    · have h1 : (c : Int) + 1 > 10 := by omega
      simp [h1, h9, h10]

theorem RaiseWarnings_enabled (calls : List (SourceLocation × String)) :
    ∀ (g : Globals) (c : Nat), g.DisableWarnings = false → g.CompilationWarnings = c →
      c + calls.length ≤ 2147483647 →
      RaiseWarnings calls g
        = .returned ()
            { g with CompilationWarnings := ((c + calls.length : Nat) : Int)
                     cerr := g.cerr ++ WarningTexts (c + 1) calls } := by
  induction calls with
  | nil =>
    intro g c _ hc _
    simp [RaiseWarnings, WarningTexts, ← hc]
  | cons call rest ih =>
    intro g c henabled hc hbound
    simp only [List.length_cons] at hbound
    have hrest := ih
      { g with CompilationWarnings := ((c + 1 : Nat) : Int)
               cerr := g.cerr ++ WarningText (c + 1) call.1 call.2 } (c + 1) henabled rfl
      (by omega)
    rw [RaiseWarnings, RaiseWarning_enabled call.1 call.2 g c henabled hc (by omega)]
    simp only [Outcome.andThen]
    rw [hrest]
    have hlen : c + 1 + rest.length = c + (call :: rest).length := by
      simp only [List.length_cons]; omega
    simp only [WarningTexts, String.append_assoc, hlen]

theorem WarningTexts_eq (calls : List (SourceLocation × String)) :
    ∀ c : Nat, WarningTexts (c + 1) calls
      = ConcatLines ((calls.take (9 - c)).map fun call =>
            DiagnosticLine call.1 "warning" call.2)
          ++ (if c < 10 ∧ 10 ≤ c + calls.length then
                "warning: maximum warnings have been reached\n" else "") := by
  induction calls with
  | nil =>
    intro c
    have hn : ¬ (c < 10 ∧ 10 ≤ c + ([] : List (SourceLocation × String)).length) := by
      simp only [List.length_nil]; omega
    rw [if_neg hn]
    simp [WarningTexts, ConcatLines]
  | cons call rest ih =>
    intro c
    rw [WarningTexts, ih (c + 1)]
    by_cases h9 : c + 1 ≤ 9
    · obtain ⟨d, hd⟩ : ∃ d, 9 - c = d + 1 := ⟨8 - c, by omega⟩
      have hd' : 9 - (c + 1) = d := by omega
      have hiff : (c + 1 < 10 ∧ 10 ≤ c + 1 + rest.length) ↔
          (c < 10 ∧ 10 ≤ c + (call :: rest).length) := by
        simp only [List.length_cons]; omega
      simp only [hd, hd', List.take_succ_cons, List.map_cons, ConcatLines, WarningText, h9,
        if_true, hiff, String.append_assoc]
    · by_cases h10 : c + 1 = 10
      · have e1 : 9 - c = 0 := by omega
        have e2 : 9 - (c + 1) = 0 := by omega
        have n1 : ¬ (c + 1 < 10 ∧ 10 ≤ c + 1 + rest.length) := by omega
        have n2 : c < 10 ∧ 10 ≤ c + (call :: rest).length := by
          simp only [List.length_cons]; omega
        rw [if_neg n1, if_pos n2]
        simp [e1, e2, WarningText, h9, h10, ConcatLines]
      · have e1 : 9 - c = 0 := by omega
        have e2 : 9 - (c + 1) = 0 := by omega
        have n1 : ¬ (c + 1 < 10 ∧ 10 ≤ c + 1 + rest.length) := by omega
        have n2 : ¬ (c < 10 ∧ 10 ≤ c + (call :: rest).length) := by
          simp only [List.length_cons]; omega
        rw [if_neg n1, if_neg n2]
        simp [e1, e2, WarningText, h9, h10, ConcatLines]

/-- C9, as amended: with warnings enabled and the warning counter reset, in any
sequence of at most 2147483647 `RaiseWarning` calls every call returns; the call
number `k + 1` adds to the error stream its own line
`path:line:col: warning: message` when it is one of the first nine, only the
notice `warning: maximum warnings have been reached` when it is the tenth, and
nothing from the eleventh on. The whole output is therefore the lines of the
first nine calls followed, once ten calls have been made, by the notice, written
a single time. -/
theorem raiseWarning_sequence (calls : List (SourceLocation × String)) (g : Globals)
    (henabled : g.DisableWarnings = false) (hreset : g.CompilationWarnings = 0)
    (hbound : calls.length ≤ 2147483647) :
    (∀ (k : Nat) (hk : k < calls.length),
      ∃ g1, RaiseWarnings (calls.take k) g = .returned () g1 ∧
        (k + 1 ≤ 9 →
          RaiseWarning calls[k].1 calls[k].2 g1
            = .returned ()
                { g1 with CompilationWarnings := ((k + 1 : Nat) : Int)
                          cerr := g1.cerr
                            ++ DiagnosticLine calls[k].1 "warning" calls[k].2 }) ∧
        (k + 1 = 10 →
          RaiseWarning calls[k].1 calls[k].2 g1
            = .returned ()
                { g1 with CompilationWarnings := ((k + 1 : Nat) : Int)
                          cerr := g1.cerr
                            ++ "warning: maximum warnings have been reached\n" }) ∧
        (11 ≤ k + 1 →
          RaiseWarning calls[k].1 calls[k].2 g1
            = .returned () { g1 with CompilationWarnings := ((k + 1 : Nat) : Int) })) ∧
    (∃ g2, RaiseWarnings calls g = .returned () g2 ∧
      g2.cerr = g.cerr
        ++ ConcatLines ((calls.take 9).map fun call =>
            DiagnosticLine call.1 "warning" call.2)
        ++ (if 10 ≤ calls.length then "warning: maximum warnings have been reached\n"
            else "")) := by
  constructor
  · intro k hk
    have hlen : 0 + (calls.take k).length = k := by
      simp only [List.length_take]; omega
    have hrun := RaiseWarnings_enabled (calls.take k) g 0 henabled (by simpa using hreset)
      (by omega)
    rw [hlen] at hrun
    obtain ⟨g1, hrun1, hen1, hc1⟩ :
        ∃ g1, RaiseWarnings (calls.take k) g = .returned () g1 ∧
          g1.DisableWarnings = false ∧ g1.CompilationWarnings = (k : Int) :=
      ⟨_, hrun, henabled, rfl⟩
    have hk' : k < 2147483647 := by omega
    refine ⟨g1, hrun1, ?_, ?_, ?_⟩
    · intro h9
      rw [RaiseWarning_enabled calls[k].1 calls[k].2 g1 k hen1 hc1 hk']
      simp [WarningText, h9]
    · intro h10
      have h9 : ¬ (k + 1 ≤ 9) := by omega
      rw [RaiseWarning_enabled calls[k].1 calls[k].2 g1 k hen1 hc1 hk']
      simp [WarningText, h9, h10]
    · intro h11
      have h9 : ¬ (k + 1 ≤ 9) := by omega
      have h10 : ¬ (k + 1 = 10) := by omega
      rw [RaiseWarning_enabled calls[k].1 calls[k].2 g1 k hen1 hc1 hk']
      simp [WarningText, h9, h10]
  · have hrun := RaiseWarnings_enabled calls g 0 henabled (by simpa using hreset) (by omega)
    refine ⟨_, hrun, ?_⟩
    have htexts := WarningTexts_eq calls 0
    simp only [Nat.zero_add, Nat.sub_zero, Nat.zero_lt_succ, true_and] at htexts
    have h10 : (0 < 10 ∧ 10 ≤ calls.length) ↔ 10 ≤ calls.length := by omega
    simp only [Nat.zero_add, htexts, h10, String.append_assoc]

/-- C9 as amended, for twelve warnings all alike after a reset. -/
theorem raiseWarning_sequence_witness :
    (ResetGlobals.DisableWarnings = false ∧ ResetGlobals.CompilationWarnings = 0 ∧
      TwelveWarnings.length ≤ 2147483647) ∧
    ∃ g2, RaiseWarnings TwelveWarnings ResetGlobals = .returned () g2 ∧
      g2.cerr = ResetGlobals.cerr
        ++ ConcatLines ((TwelveWarnings.take 9).map fun call =>
            DiagnosticLine call.1 "warning" call.2)
        ++ (if 10 ≤ TwelveWarnings.length then "warning: maximum warnings have been reached\n"
            else "") :=
  ⟨⟨rfl, rfl, by decide⟩,
   (raiseWarning_sequence TwelveWarnings ResetGlobals rfl rfl (by decide)).2⟩

theorem ManyWarnings_length : ManyWarnings.length = 2147483647 :=
  List.length_replicate 2147483647 _

theorem RaiseWarning_at_INT_MAX (Location : SourceLocation) (Description : String)
    (g : Globals) (henabled : g.DisableWarnings = false)
    (hc : g.CompilationWarnings = 2147483647) :
    RaiseWarning Location Description g
      = .returned ()
          { g with CompilationWarnings := -2147483648
                   cerr := g.cerr ++ DiagnosticLine Location "warning" Description } := by
  have hinc : IntIncrement 2147483647 = -2147483648 := by decide
  have h1 : ¬ ((-2147483648 : Int) > MAXIMUM_WARNINGS) := by decide
  have h2 : ¬ ((-2147483648 : Int) = MAXIMUM_WARNINGS) := by decide
  simp [RaiseWarning, henabled, hc, hinc, h1, h2, DiagnosticLine, String.append_assoc]

/-- C9 as stated fails: after 2147483647 calls from a reset counter the counter
stands at `INT_MAX`; the next call, far beyond the eleventh, takes it to
`INT_MIN` and writes its own warning line. -/
theorem raiseWarning_after_INT_MAX_calls :
    ∃ g1, RaiseWarnings ManyWarnings ResetGlobals = .returned () g1 ∧
      RaiseWarning ⟨"main.c", 1, 1⟩ "w" g1
        = .returned ()
            { g1 with CompilationWarnings := -2147483648
                      cerr := g1.cerr ++ DiagnosticLine ⟨"main.c", 1, 1⟩ "warning" "w" } := by
  have hrun := RaiseWarnings_enabled ManyWarnings ResetGlobals 0 rfl rfl
    (by rw [ManyWarnings_length])
  rw [ManyWarnings_length] at hrun
  exact ⟨_, hrun, RaiseWarning_at_INT_MAX _ _ _ rfl rfl⟩

/-- C10, as amended: whatever the counters and the flag, a call of `RaiseWarning`
returns normally and never throws, with the error counter and the flag
unchanged and the warning counter incremented as an `int`; for every prior
counter value below `INT_MAX` the warning counter is one higher after the call. -/
theorem raiseWarning_counts (Location : SourceLocation) (Description : String) (g : Globals) :
    (∃ g1, RaiseWarning Location Description g = .returned () g1 ∧
      g1.CompilationWarnings = IntIncrement g.CompilationWarnings ∧
      g1.CompilationErrors = g.CompilationErrors ∧
      g1.DisableWarnings = g.DisableWarnings) ∧
    (∀ what g2, RaiseWarning Location Description g ≠ .thrown what g2) ∧
    (INT_MIN ≤ g.CompilationWarnings → g.CompilationWarnings < INT_MAX →
      ∃ g1, RaiseWarning Location Description g = .returned () g1 ∧
        g1.CompilationWarnings = g.CompilationWarnings + 1) := by
  have hfirst : ∃ g1, RaiseWarning Location Description g = .returned () g1 ∧
      g1.CompilationWarnings = IntIncrement g.CompilationWarnings ∧
      g1.CompilationErrors = g.CompilationErrors ∧
      g1.DisableWarnings = g.DisableWarnings := by
    unfold RaiseWarning
    simp only []
    split
    · exact ⟨_, rfl, rfl, rfl, rfl⟩
    · split
      · exact ⟨_, rfl, rfl, rfl, rfl⟩
      · exact ⟨_, rfl, rfl, rfl, rfl⟩
  refine ⟨hfirst, ?_, fun hlow hhigh => ?_⟩
  · intro what g2
    unfold RaiseWarning
    simp only []
    split
    · simp
    · split <;> simp
  · obtain ⟨g1, hrun, hw, _, _⟩ := hfirst
    unfold INT_MIN at hlow
    unfold INT_MAX at hhigh
    exact ⟨g1, hrun, by rw [hw, IntIncrement_eq _ hlow hhigh]⟩

/-- C10 as amended, on the call that brings the counter from 9 to 10. -/
theorem raiseWarning_counts_witness :
    (INT_MIN ≤ (⟨0, 9, false, ""⟩ : Globals).CompilationWarnings ∧
      (⟨0, 9, false, ""⟩ : Globals).CompilationWarnings < INT_MAX) ∧
    ∃ g1, RaiseWarning ⟨"main.c", 4, 2⟩ "unused variable" ⟨0, 9, false, ""⟩
        = .returned () g1 ∧
      g1.CompilationWarnings = (⟨0, 9, false, ""⟩ : Globals).CompilationWarnings + 1 :=
  ⟨⟨by decide, by decide⟩,
   (raiseWarning_counts ⟨"main.c", 4, 2⟩ "unused variable" ⟨0, 9, false, ""⟩).2.2
     (by decide) (by decide)⟩

/-- C10 as stated fails: with the warning counter at `INT_MAX` and warnings
enabled, the call returns with the counter at `INT_MIN`, which is not one more
than before, and writes the warning line. -/
theorem raiseWarning_wraps_at_INT_MAX :
    RaiseWarning ⟨"main.c", 1, 1⟩ "w" ⟨0, 2147483647, false, ""⟩
        = .returned () ⟨0, -2147483648, false, "main.c:1:1: warning: w\n"⟩ ∧
      (-2147483648 : Int) ≠ 2147483647 + 1 := by
  decide

/-! ## Disabled warnings -/

/-- C11: with warnings disabled, whatever the counters, a call of `RaiseWarning`
returns with the warning counter incremented and everything else as it was: the
error stream, the error counter and the flag are untouched, so neither the
warning line nor the notice is written, the call that brings the counter to 10
included. The increment is the one of an `int`: one more for every counter
below `INT_MAX`. -/
theorem raiseWarning_disabled_silent (Location : SourceLocation) (Description : String)
    (g : Globals) (hdisabled : g.DisableWarnings = true) :
    RaiseWarning Location Description g
        = .returned ()
            { g with CompilationWarnings := IntIncrement g.CompilationWarnings } ∧
      (GlobalsAfter (RaiseWarning Location Description g) g).cerr = g.cerr ∧
      (INT_MIN ≤ g.CompilationWarnings → g.CompilationWarnings < INT_MAX →
        RaiseWarning Location Description g
          = .returned () { g with CompilationWarnings := g.CompilationWarnings + 1 }) := by
  have h : RaiseWarning Location Description g
      = .returned ()
          { g with CompilationWarnings := IntIncrement g.CompilationWarnings } := by
    simp [RaiseWarning, hdisabled]
  refine ⟨h, by rw [h]; rfl, fun hlow hhigh => ?_⟩
  unfold INT_MIN at hlow
  unfold INT_MAX at hhigh
  rw [h, IntIncrement_eq _ hlow hhigh]

/-- C11, on the call that brings the counter from 9 to 10. -/
theorem raiseWarning_disabled_silent_witness :
    (⟨0, 9, true, "so far\n"⟩ : Globals).DisableWarnings = true ∧
      RaiseWarning ⟨"main.c", 4, 2⟩ "unused variable" ⟨0, 9, true, "so far\n"⟩
        = .returned () ⟨0, 10, true, "so far\n"⟩ :=
  ⟨rfl, (raiseWarning_disabled_silent ⟨"main.c", 4, 2⟩ "unused variable"
    ⟨0, 9, true, "so far\n"⟩ rfl).1⟩

/-! ## The line checks -/

theorem ExpectSameLine_eq (Start Current : CToken) (g : Globals) :
    ExpectSameLine Start Current g
      = if Start.Location.Line = Current.Location.Line then .returned () g
        else .thrown "compilation terminated"
          (g.withFatal Start.Location "unexpected end of line") := by
  by_cases h : Start.Location.Line = Current.Location.Line <;>
    simp [ExpectSameLine, AreInSameLine, h, RaiseFatalError_eq]

theorem ExpectEndOfLine_eq (Start Current : CToken) (g : Globals) :
    ExpectEndOfLine Start Current g
      = if Start.Location.Line = Current.Location.Line then
          .thrown "compilation terminated" (g.withFatal Current.Location "uxpected end of line")
        else .returned () g := by
  by_cases h : Start.Location.Line = Current.Location.Line <;>
    simp [ExpectEndOfLine, AreInSameLine, h, RaiseFatalError_eq]

/-- C12: for any two tokens, `ExpectSameLine` throws exactly when their lines
differ and `ExpectEndOfLine` throws exactly when their lines are equal; so one
of the two throws and the other returns normally with the globals, the error
stream among them, untouched. -/
theorem line_checks_are_complementary (a b : CToken) (g : Globals) :
    ((∃ what g1, ExpectSameLine a b g = .thrown what g1) ↔
        a.Location.Line ≠ b.Location.Line) ∧
    ((∃ what g1, ExpectEndOfLine a b g = .thrown what g1) ↔
        a.Location.Line = b.Location.Line) ∧
    (((∃ what g1, ExpectSameLine a b g = .thrown what g1) ∧
        ExpectEndOfLine a b g = .returned () g) ∨
      ((∃ what g1, ExpectEndOfLine a b g = .thrown what g1) ∧
        ExpectSameLine a b g = .returned () g)) := by
  rw [ExpectSameLine_eq, ExpectEndOfLine_eq]
  by_cases h : a.Location.Line = b.Location.Line
  · simp [h]
  · simp [h]

/-- C13 as stated fails: with both tokens on line 7, the failing
`ExpectEndOfLine` does not write the message `unexpected content before end of
line`; the line it writes carries another text. -/
theorem expectEndOfLine_message_differs :
    AreInSameLine SampleStart SampleSameLine = true ∧
    ExpectEndOfLine SampleStart SampleSameLine ResetGlobals
      ≠ .thrown "compilation terminated"
          (ResetGlobals.withFatal SampleSameLine.Location
            "unexpected content before end of line") := by
  refine ⟨rfl, ?_⟩
  decide

/-- C13, as amended: whenever `ExpectEndOfLine` fails, the two tokens being on the
same line, it throws after writing a fatal diagnostic at the location of the
current token; the message is the terse end-of-line wording, a text that ends in
`xpected end of line`, and is not `unexpected content before end of line`. -/
theorem expectEndOfLine_failure_message (Start Current : CToken) (g : Globals)
    (hsame : Start.Location.Line = Current.Location.Line) :
    ∃ Message : String,
      "xpected end of line".toList <:+ Message.toList ∧
      Message ≠ "unexpected content before end of line" ∧
      ExpectEndOfLine Start Current g
        = .thrown "compilation terminated" (g.withFatal Current.Location Message) := by
  refine ⟨"uxpected end of line", ⟨['u'], rfl⟩, by decide, ?_⟩
  rw [ExpectEndOfLine_eq, if_pos hsame]

/-- C13 as amended, with both tokens on line 7. -/
theorem expectEndOfLine_failure_message_witness :
    SampleStart.Location.Line = SampleSameLine.Location.Line ∧
    ∃ Message : String,
      "xpected end of line".toList <:+ Message.toList ∧
      Message ≠ "unexpected content before end of line" ∧
      ExpectEndOfLine SampleStart SampleSameLine ResetGlobals
        = .thrown "compilation terminated"
            (ResetGlobals.withFatal SampleSameLine.Location Message) :=
  ⟨rfl, expectEndOfLine_failure_message SampleStart SampleSameLine ResetGlobals rfl⟩

/-! ## Expectations in sequence -/

theorem call_accepts (SpecialSymbolToString : SpecialSymbolTypes → String)
    (DelimiterToString : DelimiterTypes → String)
    (KeywordToString : KeywordTypes → String)
    (OperatorToString : OperatorTypes → String)
    (AtStart : CToken) (Tokens : List CToken) (e : Expectation) (s : ParserState)
    (t : CToken) (v : Option String)
    (ht : TokenAt Tokens s.TokenPosition = some t) (hl : IsLastToken t = false)
    (ha : e.accept t = some v) :
    e.call SpecialSymbolToString DelimiterToString KeywordToString OperatorToString AtStart
        Tokens s
      = .returned v ⟨s.TokenPosition + 1, s.globals⟩ := by
  cases e with
  | Identifier =>
    cases hn : AcceptIdentifier t with
    | none => simp [Expectation.accept, hn] at ha
    | some w =>
      simp only [Expectation.accept, hn, Option.map_some', Option.some.injEq] at ha
      subst ha
      simp [Expectation.call, ExpectIdentifier_eq_shared, shared_accepts _ _ _ _ _ _ _ ht hl hn,
        Outcome.andThen]
  | Keyword K =>
    cases hn : AcceptKeyword K t with
    | none => simp [Expectation.accept, hn] at ha
    | some w =>
      simp only [Expectation.accept, hn, Option.map_some', Option.some.injEq] at ha
      subst ha
      simp [Expectation.call, ExpectKeyword_eq_shared, shared_accepts _ _ _ _ _ _ _ ht hl hn,
        Outcome.andThen]
  | Operator K =>
    cases hn : AcceptOperator K t with
    | none => simp [Expectation.accept, hn] at ha
    | some w =>
      simp only [Expectation.accept, hn, Option.map_some', Option.some.injEq] at ha
      subst ha
      simp [Expectation.call, ExpectOperator_eq_shared, shared_accepts _ _ _ _ _ _ _ ht hl hn,
        Outcome.andThen]
  | Delimiter K =>
    cases hn : AcceptDelimiter K t with
    | none => simp [Expectation.accept, hn] at ha
    | some w =>
      simp only [Expectation.accept, hn, Option.map_some', Option.some.injEq] at ha
      subst ha
      simp [Expectation.call, ExpectDelimiter_eq_shared, shared_accepts _ _ _ _ _ _ _ ht hl hn,
        Outcome.andThen]
  | SpecialSymbol K =>
    cases hn : AcceptSpecialSymbol K t with
    | none => simp [Expectation.accept, hn] at ha
    | some w =>
      simp only [Expectation.accept, hn, Option.map_some', Option.some.injEq] at ha
      subst ha
      simp [Expectation.call, ExpectSpecialSymbol_eq_shared, shared_accepts _ _ _ _ _ _ _ ht hl hn,
        Outcome.andThen]

theorem run_accepts (SpecialSymbolToString : SpecialSymbolTypes → String)
    (DelimiterToString : DelimiterTypes → String)
    (KeywordToString : KeywordTypes → String)
    (OperatorToString : OperatorTypes → String)
    (AtStart : CToken) (Tokens : List CToken) (es : List Expectation) :
    ∀ s : ParserState,
      (∀ (i : Nat) (hi : i < es.length), ∃ t, TokenAt Tokens (s.TokenPosition + i) = some t ∧
          IsLastToken t = false ∧ (es[i].accept t).isSome = true) →
      ∃ values,
        RunExpectations SpecialSymbolToString DelimiterToString KeywordToString
            OperatorToString AtStart Tokens es s
          = .returned values ⟨s.TokenPosition + es.length, s.globals⟩ ∧
        ∀ (i : Nat) (hi : i < es.length) (t : CToken),
          TokenAt Tokens (s.TokenPosition + i) = some t → es[i].accept t = values[i]? := by
  induction es with
  | nil =>
    intro s _
    exact ⟨[], rfl, fun i hi => absurd hi (Nat.not_lt_zero i)⟩
  | cons e rest ih =>
    intro s h
    obtain ⟨t, ht, hl, ha⟩ := h 0 (Nat.succ_pos _)
    obtain ⟨v, hv⟩ := Option.isSome_iff_exists.mp ha
    simp only [List.getElem_cons_zero] at hv
    rw [Nat.add_zero] at ht
    have hcall := call_accepts SpecialSymbolToString DelimiterToString KeywordToString
      OperatorToString AtStart Tokens e s t v ht hl hv
    obtain ⟨vs, hrun, hvs⟩ := ih ⟨s.TokenPosition + 1, s.globals⟩ (by
      intro i hi
      obtain ⟨t', ht', hl', ha'⟩ := h (i + 1) (Nat.succ_lt_succ hi)
      simp only [List.getElem_cons_succ] at ha'
      exact ⟨t', by rw [← ht']; congr 1; simp only []; omega, hl', ha'⟩)
    refine ⟨v :: vs, ?_, ?_⟩
    · simp only [RunExpectations, hcall, Outcome.andThen, hrun, List.length_cons]
      congr 2
      omega
    · intro i hi t' ht'
      cases i with
      | zero =>
        rw [Nat.add_zero, ht] at ht'
        cases ht'
        simpa using hv
      | succ j =>
        simp only [List.getElem_cons_succ, List.getElem?_cons_succ]
        exact hvs j (Nat.lt_of_succ_lt_succ hi) t' (by rw [← ht']; congr 1; simp only []; omega)

/-- C14: when the tokens at indices 0 to n - 1 are not the sentinel and satisfy,
one by one, a list of n expectations, the n calls made in order from cursor 0
all return, the globals (the error stream among them) are untouched and the
cursor ends at index n; each value returned is what the token of the same index
yields. In particular, on the sample sequence `if ( x )` the four calls of the
scenario return, the cursor ends at index 4, on the sentinel, and the name
returned is `x`. -/
theorem expectations_in_sequence
    (SpecialSymbolToString : SpecialSymbolTypes → String)
    (DelimiterToString : DelimiterTypes → String)
    (KeywordToString : KeywordTypes → String)
    (OperatorToString : OperatorTypes → String) (AtStart : CToken) :
    (∀ (Tokens : List CToken) (es : List Expectation) (g : Globals),
      (∀ (i : Nat) (hi : i < es.length), ∃ t, TokenAt Tokens i = some t ∧
          IsLastToken t = false ∧ (es[i].accept t).isSome = true) →
      ∃ values,
        RunExpectations SpecialSymbolToString DelimiterToString KeywordToString
            OperatorToString AtStart Tokens es ⟨0, g⟩
          = .returned values ⟨es.length, g⟩ ∧
        ∀ (i : Nat) (hi : i < es.length) (t : CToken),
          TokenAt Tokens i = some t → es[i].accept t = values[i]?) ∧
    (RunExpectations SpecialSymbolToString DelimiterToString KeywordToString
          OperatorToString AtStart SampleTokens SampleExpectations ⟨0, ResetGlobals⟩
        = .returned [none, none, some "x", none] ⟨4, ResetGlobals⟩ ∧
      TokenAt SampleTokens 4 = some (.EndOfFile ⟨"main.c", 2, 1⟩)) := by
  refine ⟨fun Tokens es g h => ?_, rfl, rfl⟩
  have hrun := run_accepts SpecialSymbolToString DelimiterToString KeywordToString
    OperatorToString AtStart Tokens es ⟨0, g⟩ (by simpa using h)
  simpa using hrun

/-- C14, the general statement applied to the scenario of the spec. -/
theorem expectations_in_sequence_witness :
    ∃ values,
      RunExpectations SampleToString SampleDelimiterToString SampleToString SampleToString
          SampleAtStart SampleTokens SampleExpectations ⟨0, ResetGlobals⟩
        = .returned values ⟨SampleExpectations.length, ResetGlobals⟩ ∧
      ∀ (i : Nat) (hi : i < SampleExpectations.length) (t : CToken),
        TokenAt SampleTokens i = some t → SampleExpectations[i].accept t = values[i]? :=
  (expectations_in_sequence SampleToString SampleDelimiterToString SampleToString
      SampleToString SampleAtStart).1 SampleTokens SampleExpectations ResetGlobals (by
    intro i hi
    have hi4 : i < 4 := hi
    interval_cases i
    · exact ⟨_, rfl, rfl, rfl⟩
    · exact ⟨_, rfl, rfl, rfl⟩
    · exact ⟨_, rfl, rfl, rfl⟩
    · exact ⟨_, rfl, rfl, rfl⟩)

/-! ## The sentinel under the cursor -/

/-- C15: on a sequence that holds the sentinel only, with the cursor at index 0,
`ExpectIdentifier` has a defined outcome: it throws after writing the fatal
diagnostic `unexpected end of file` at the location of the token that stands in
for the absent previous token, and the cursor stays at 0. The lookup of the
previous token yields a token at every cursor position that designates a token;
it is never out of bounds. -/
theorem expectIdentifier_on_lone_sentinel (AtStart : CToken) (Last : SourceLocation)
    (g : Globals) :
    ExpectIdentifier AtStart [CToken.EndOfFile Last] ⟨0, g⟩
        = .thrown "compilation terminated"
            ⟨0, g.withFatal AtStart.Location "unexpected end of file"⟩ ∧
    PreviousToken AtStart [CToken.EndOfFile Last] 0 = some AtStart ∧
    (∀ (Tokens : List CToken) (TokenPosition : Nat) (t : CToken),
      TokenAt Tokens TokenPosition = some t →
        ∃ b, PreviousToken AtStart Tokens TokenPosition = some b) := by
  refine ⟨?_, rfl, fun Tokens n t ht => PreviousToken_defined AtStart Tokens n t ht⟩
  rw [ExpectIdentifier_eq_shared]
  exact shared_sentinel AcceptIdentifier "identifier" AtStart [CToken.EndOfFile Last] ⟨0, g⟩
    (CToken.EndOfFile Last) AtStart rfl rfl rfl

/-- C15, on the sample sequence that holds the sentinel only. -/
theorem expectIdentifier_on_lone_sentinel_witness :
    ExpectIdentifier SampleAtStart LoneSentinel ⟨0, ResetGlobals⟩
      = .thrown "compilation terminated"
          ⟨0, ResetGlobals.withFatal SampleAtStart.Location "unexpected end of file"⟩ :=
  (expectIdentifier_on_lone_sentinel SampleAtStart ⟨"main.c", 1, 1⟩ ResetGlobals).1

/-! ## The error cap -/

theorem RaiseError_outcome (Location : SourceLocation) (Description : String) (g : Globals) :
    (15 ≤ IntIncrement g.CompilationErrors ∧
      RaiseError Location Description g
        = .thrown "error: maximum errors have been reached"
            { g with CompilationErrors := IntIncrement g.CompilationErrors }) ∨
    (IntIncrement g.CompilationErrors < 15 ∧
      RaiseError Location Description g
        = .returned ()
            { g with CompilationErrors := IntIncrement g.CompilationErrors
                     cerr := g.cerr ++ DiagnosticLine Location "error" Description }) := by
  by_cases h : MAXIMUM_ERRORS ≤ IntIncrement g.CompilationErrors
  · left
    refine ⟨by unfold MAXIMUM_ERRORS at h; exact h, ?_⟩
    simp [RaiseError, h]
  · right
    refine ⟨by unfold MAXIMUM_ERRORS at h; omega, ?_⟩
    simp [RaiseError, h, DiagnosticLine, String.append_assoc]

theorem RaiseError_returned (Location : SourceLocation) (Description : String)
    (g g1 : Globals) (h : RaiseError Location Description g = .returned () g1) :
    g1.CompilationErrors ≤ 14 := by
  rcases RaiseError_outcome Location Description g with ⟨_, hthrown⟩ | ⟨hlt, hreturned⟩
  · rw [hthrown] at h
    cases h
  · rw [hreturned] at h
    cases h
    simp only []
    omega

theorem RaiseError_thrown (Location : SourceLocation) (Description what : String)
    (g g1 : Globals) (h : RaiseError Location Description g = .thrown what g1) :
    15 ≤ g1.CompilationErrors ∧ g1.CompilationErrors ≤ 2147483647 := by
  have hrange := IntIncrement_range g.CompilationErrors
  rcases RaiseError_outcome Location Description g with ⟨hge, hthrown⟩ | ⟨_, hreturned⟩
  · rw [hthrown] at h
    cases h
    exact ⟨hge, hrange.2⟩
  · rw [hreturned] at h
    cases h

theorem RaiseErrors_returned (calls : List (SourceLocation × String)) :
    ∀ g g1 : Globals, g.CompilationErrors ≤ 14 → RaiseErrors calls g = .returned () g1 →
      g1.CompilationErrors ≤ 14 := by
  induction calls with
  | nil =>
    intro g g1 hg h
    simp only [RaiseErrors, Outcome.returned.injEq, true_and] at h
    rw [← h]
    exact hg
  | cons call rest ih =>
    intro g g1 _ h
    simp only [RaiseErrors] at h
    cases hstep : RaiseError call.1 call.2 g with
    | returned v g2 =>
      rw [hstep] at h
      exact ih g2 g1 (RaiseError_returned _ _ g g2 hstep) h
    | thrown w g2 =>
      rw [hstep] at h
      cases h
    | undefined =>
      rw [hstep] at h
      cases h

theorem GlobalsAfterErrors_capped (later : List (SourceLocation × String)) :
    ∀ g : Globals, 14 ≤ g.CompilationErrors →
      g.CompilationErrors + later.length < 2147483647 →
      (GlobalsAfterErrors later g).CompilationErrors = g.CompilationErrors + later.length := by
  induction later with
  | nil => intro g _ _; simp [GlobalsAfterErrors]
  | cons call rest ih =>
    intro g hg hbound
    simp only [List.length_cons, Nat.cast_add, Nat.cast_one] at hbound
    simp only [GlobalsAfterErrors]
    rw [RaiseError_capped call.1 call.2 g (by omega) (by omega)]
    simp only [GlobalsAfter]
    rw [ih _ (by simp only []; omega) (by simp only []; omega)]
    simp only [List.length_cons, Nat.cast_add, Nat.cast_one]
    omega

/-- C19, as amended: the cap on errors is sticky below `INT_MAX`. With the error
counter at 14 or more and below `INT_MAX`, `RaiseError` throws with the text of
the cap and writes no line (the error stream is untouched); with the counter
below 14 it returns normally. Hence every state reached from a reset counter
through `RaiseError` calls that returned has its counter at 14 at most, and once
a call of `RaiseError` has thrown, every later call of `RaiseError` throws as
well, as long as the counter has not reached `INT_MAX`. -/
theorem raiseError_cap_is_sticky :
    (∀ (Location : SourceLocation) (Description : String) (g : Globals),
      14 ≤ g.CompilationErrors → g.CompilationErrors < INT_MAX →
        RaiseError Location Description g
          = .thrown "error: maximum errors have been reached"
              { g with CompilationErrors := g.CompilationErrors + 1 }) ∧
    (∀ (Location : SourceLocation) (Description : String) (g : Globals),
      INT_MIN ≤ g.CompilationErrors → g.CompilationErrors < 14 →
        ∃ g1, RaiseError Location Description g = .returned () g1) ∧
    (∀ (calls : List (SourceLocation × String)) (g g1 : Globals),
      g.CompilationErrors = 0 → RaiseErrors calls g = .returned () g1 →
        g1.CompilationErrors ≤ 14) ∧
    (∀ (Location : SourceLocation) (Description what : String) (g g1 : Globals),
      RaiseError Location Description g = .thrown what g1 →
        ∀ (later : List (SourceLocation × String)) (Location2 : SourceLocation)
          (Description2 : String),
          g1.CompilationErrors + later.length < INT_MAX →
          ∃ g2, RaiseError Location2 Description2 (GlobalsAfterErrors later g1)
            = .thrown "error: maximum errors have been reached" g2) := by
  unfold INT_MAX INT_MIN
  refine ⟨fun Location Description g h hhigh => ?_, fun Location Description g hlow h => ?_,
    fun calls g g1 h0 hrun => ?_,
    fun Location Description what g g1 h later l2 d2 hbound => ?_⟩
  · exact RaiseError_capped Location Description g (by omega) hhigh
  · exact ⟨_, RaiseError_below Location Description g hlow (by omega)⟩
  · exact RaiseErrors_returned calls g g1 (by omega) hrun
  · have hg1 := RaiseError_thrown Location Description what g g1 h
    have hlater := GlobalsAfterErrors_capped later g1 (by omega) hbound
    exact ⟨_, RaiseError_capped l2 d2 _ (by omega) (by omega)⟩

/-- C19 as amended, with a counter already at 20: the call throws and writes
nothing. -/
theorem raiseError_cap_is_sticky_witness :
    ((14 : Int) ≤ (⟨20, 0, false, "text\n"⟩ : Globals).CompilationErrors ∧
      (⟨20, 0, false, "text\n"⟩ : Globals).CompilationErrors < INT_MAX) ∧
    RaiseError ⟨"main.c", 5, 5⟩ "another error" ⟨20, 0, false, "text\n"⟩
      = .thrown "error: maximum errors have been reached" ⟨21, 0, false, "text\n"⟩ :=
  ⟨⟨by decide, by decide⟩,
   raiseError_cap_is_sticky.1 ⟨"main.c", 5, 5⟩ "another error" ⟨20, 0, false, "text\n"⟩
     (by decide) (by decide)⟩

/-- C19 as stated fails: with the error counter at `INT_MAX`, a value above 14,
`RaiseError` takes the counter to `INT_MIN`, returns normally and writes the
error line. -/
theorem raiseError_returns_at_INT_MAX :
    (14 : Int) ≤ (⟨2147483647, 0, false, ""⟩ : Globals).CompilationErrors ∧
    RaiseError ⟨"main.c", 1, 1⟩ "e" ⟨2147483647, 0, false, ""⟩
      = .returned () ⟨-2147483648, 0, false, "main.c:1:1: error: e\n"⟩ := by
  decide

/-! ## ReplaceSubstring -/

theorem FindIn_none (Old New : CString) (todo : CString) :
    ∀ Position, FindIn Old todo Position = none → ReplaceScan Old New 0 todo = todo := by
  induction todo with
  | nil => intro _ _; rfl
  | cons c rest ih =>
    intro Position h
    by_cases hp : Old.isPrefixOf (c :: rest) = true
    · simp [FindIn, hp] at h
    · simp only [FindIn, hp, if_false] at h
      simp only [ReplaceScan, hp, Bool.false_eq_true, if_false, ih _ h]

theorem ReplaceScan_skip (Old New : CString) (xs ys : CString) :
    ReplaceScan Old New xs.length (xs ++ ys) = ReplaceScan Old New 0 ys := by
  induction xs with
  | nil => rfl
  | cons x rest ih => simpa [ReplaceScan] using ih

theorem FindIn_some (Old New : CString) (hOld : Old ≠ []) (todo : CString) :
    ∀ Position Found, FindIn Old todo Position = some Found →
      ∃ before after, todo = before ++ Old ++ after ∧ Found = Position + before.length ∧
        ReplaceScan Old New 0 todo = before ++ New ++ ReplaceScan Old New 0 after := by
  induction todo with
  | nil =>
    intro Position Found h
    cases Old with
    | nil => exact absurd rfl hOld
    | cons o rest => simp [FindIn, List.isPrefixOf] at h
  | cons c rest ih =>
    intro Position Found h
    by_cases hp : Old.isPrefixOf (c :: rest) = true
    · simp only [FindIn, hp, if_true, Option.some.injEq] at h
      obtain ⟨after, hafter⟩ := List.isPrefixOf_iff_prefix.mp hp
      refine ⟨[], after, by simpa using hafter.symm, by simpa using h.symm, ?_⟩
      cases Old with
      | nil => exact absurd rfl hOld
      | cons o tail =>
        simp only [List.cons_append, List.cons.injEq] at hafter
        obtain ⟨rfl, hrest⟩ := hafter
        simp only [ReplaceScan, hp, if_true, List.length_cons, Nat.add_sub_cancel,
          List.nil_append]
        rw [← hrest, ReplaceScan_skip]
    · simp only [FindIn, hp, if_false] at h
      obtain ⟨before, after, hsplit, hpos, hscan⟩ := ih _ _ h
      refine ⟨c :: before, after, by simp [hsplit], by simp [hpos]; omega, ?_⟩
      simp only [ReplaceScan, hp, Bool.false_eq_true, if_false, hscan, List.cons_append]

theorem Find_at_boundary (Old done todo : CString) :
    Find (done ++ todo) Old done.length = FindIn Old todo done.length := by
  simp [Find]

theorem Replace_found (Old New done before after : CString) :
    Replace (done ++ (before ++ Old ++ after)) (done.length + before.length) Old.length New
      = (done ++ before ++ New) ++ after := by
  have h1 : (done ++ (before ++ Old ++ after)) = (done ++ before) ++ (Old ++ after) := by
    simp [List.append_assoc]
  have h2 : (done ++ (before ++ Old ++ after)) = (done ++ before ++ Old) ++ after := by
    simp [List.append_assoc]
  have hl1 : done.length + before.length = (done ++ before).length := by simp
  have hl2 : done.length + before.length + Old.length = (done ++ before ++ Old).length := by
    simp [Nat.add_assoc]
  have htake : (done ++ (before ++ Old ++ after)).take (done.length + before.length)
      = done ++ before := by
    rw [h1, hl1, List.take_left]
  have hdrop : (done ++ (before ++ Old ++ after)).drop
      (done.length + before.length + Old.length) = after := by
    rw [h2, hl2, List.drop_left]
  unfold Replace
  rw [htake, hdrop]

theorem ReplaceSubstringLoop_eq (Old New : CString) (hOld : Old ≠ []) :
    ∀ (fuel : Nat) (done todo : CString), todo.length < fuel →
      ReplaceSubstringLoop Old New fuel (done ++ todo) done.length
        = some (done ++ ReplaceScan Old New 0 todo) := by
  intro fuel
  induction fuel with
  | zero => intro done todo h; exact absurd h (Nat.not_lt_zero _)
  | succ fuel ih =>
    intro done todo hlt
    simp only [ReplaceSubstringLoop, Find_at_boundary]
    cases hfind : FindIn Old todo done.length with
    | none => simp only [FindIn_none Old New todo _ hfind]
    | some Found =>
      obtain ⟨before, after, hsplit, hpos, hscan⟩ := FindIn_some Old New hOld todo _ _ hfind
      have hlen : 0 < Old.length := List.length_pos.mpr hOld
      have hafter : after.length < fuel := by
        have : todo.length = before.length + Old.length + after.length := by
          rw [hsplit]; simp [Nat.add_assoc]
        omega
      have hnext := ih (done ++ before ++ New) after hafter
      have hl : done.length + before.length + New.length = (done ++ before ++ New).length := by
        simp [Nat.add_assoc]
      rw [hscan]
      subst hsplit
      subst hpos
      simp only [Replace_found]
      rw [hl, hnext]
      simp [List.append_assoc]

theorem FindIn_absent (Old : CString) (hOld : Old ≠ []) (Text : CString)
    (habsent : ¬ Old <:+: Text) (Position : Nat) : FindIn Old Text Position = none := by
  cases hfind : FindIn Old Text Position with
  | none => rfl
  | some Found =>
    obtain ⟨before, after, hsplit, _, _⟩ := FindIn_some Old [] hOld Text _ _ hfind
    exact absurd ⟨before, after, hsplit.symm⟩ habsent

/-- C17: for a non-empty `OldSubstring` the loop of `ReplaceSubstring` ends, with
any fuel above the length of the text, and the text it leaves is the original
copied from left to right with every occurrence of `OldSubstring` met on the way
replaced by `NewSubstring`: an occurrence at the head gives `NewSubstring`
followed by the result for what follows the occurrence (the inserted text is not
scanned again, occurrences do not overlap), any other character is copied. When
`OldSubstring` does not occur, the text is unchanged. -/
theorem replaceSubstring_replaces_all (Text OldSubstring NewSubstring : CString)
    (hOld : OldSubstring ≠ []) :
    (∀ fuel, Text.length < fuel →
      ReplaceSubstringLoop OldSubstring NewSubstring fuel Text 0
        = some (ReplaceAll Text OldSubstring NewSubstring)) ∧
    ReplaceSubstring Text OldSubstring NewSubstring
      = some (ReplaceAll Text OldSubstring NewSubstring) ∧
    (¬ OldSubstring <:+: Text →
      ReplaceSubstring Text OldSubstring NewSubstring = some Text) ∧
    (ReplaceAll [] OldSubstring NewSubstring = [] ∧
      (∀ after, ReplaceAll (OldSubstring ++ after) OldSubstring NewSubstring
        = NewSubstring ++ ReplaceAll after OldSubstring NewSubstring) ∧
      (∀ c rest, ¬ OldSubstring <+: c :: rest →
        ReplaceAll (c :: rest) OldSubstring NewSubstring
          = c :: ReplaceAll rest OldSubstring NewSubstring)) := by
  have hloop : ∀ fuel, Text.length < fuel →
      ReplaceSubstringLoop OldSubstring NewSubstring fuel Text 0
        = some (ReplaceAll Text OldSubstring NewSubstring) := by
    intro fuel hfuel
    have h := ReplaceSubstringLoop_eq OldSubstring NewSubstring hOld fuel [] Text hfuel
    simpa [ReplaceAll] using h
  have hrun := hloop (Text.length + 1) (Nat.lt_succ_self _)
  refine ⟨hloop, hrun, fun habsent => ?_, rfl, fun after => ?_, fun c rest hnot => ?_⟩
  · have hnone := FindIn_absent OldSubstring hOld Text habsent 0
    simp only [ReplaceSubstring] at hrun ⊢
    rw [hrun, ReplaceAll, FindIn_none OldSubstring NewSubstring Text 0 hnone]
  · cases hO : OldSubstring with
    | nil => exact absurd hO hOld
    | cons o tail =>
      have hp : (o :: tail).isPrefixOf (o :: (tail ++ after)) = true :=
        List.isPrefixOf_iff_prefix.mpr ⟨after, rfl⟩
      have hskip := ReplaceScan_skip (o :: tail) NewSubstring tail after
      simp only [ReplaceAll, List.cons_append, ReplaceScan, List.length_cons,
        Nat.add_sub_cancel, List.append_eq]
      rw [if_pos hp, hskip]
  · have hp : ¬ (OldSubstring.isPrefixOf (c :: rest) = true) := fun h =>
      hnot (List.isPrefixOf_iff_prefix.mp h)
    simp only [ReplaceAll, ReplaceScan]
    rw [if_neg hp]

/-- C17, for a new text that holds the old one: `ab` replaced by `abab` in
`abab` gives `abababab`, nothing being replaced a second time. -/
theorem replaceSubstring_replaces_all_witness :
    str "ab" ≠ [] ∧
    ReplaceSubstring (str "abab") (str "ab") (str "abab")
      = some (ReplaceAll (str "abab") (str "ab") (str "abab")) ∧
    ReplaceAll (str "abab") (str "ab") (str "abab") = str "abababab" :=
  ⟨by decide,
   (replaceSubstring_replaces_all (str "abab") (str "ab") (str "abab") (by decide)).2.1,
   by decide⟩

/-! ## EscapeXML -/

theorem ReplaceScan_single (a : CChar) (New : CString) (Text : CString) :
    ReplaceScan [a] New 0 Text = Text.flatMap fun c => if c = a then New else [c] := by
  induction Text with
  | nil => rfl
  | cons c rest ih =>
    by_cases h : c = a
    · subst h
      simp [ReplaceScan, List.isPrefixOf, ih]
    · have h' : ¬ a = c := fun e => h e.symm
      simp [ReplaceScan, List.isPrefixOf, ih, h, h']

theorem ReplaceSubstring_single (a : CChar) (New : CString) (Text : CString) :
    ReplaceSubstring Text [a] New
      = some (Text.flatMap fun c => if c = a then New else [c]) := by
  have h := ReplaceSubstringLoop_eq [a] New (by simp) (Text.length + 1) [] Text
    (Nat.lt_succ_self _)
  simpa [ReplaceSubstring, ReplaceScan_single] using h

/-- The five replacements of `EscapeXML`, one after the other. -/
theorem EscapeXML_eq_replacements (Unescaped : CString) :
    EscapeXML Unescaped
      = some (((((Unescaped.flatMap fun c => if c = chr '&' then str "&amp;" else [c]).flatMap
          fun c => if c = chr '<' then str "&lt;" else [c]).flatMap
          fun c => if c = chr '>' then str "&gt;" else [c]).flatMap
          fun c => if c = chr '\'' then str "&apos;" else [c]).flatMap
          fun c => if c = chr '\"' then str "&quot;" else [c]) := by
  have e1 : str "&" = [chr '&'] := rfl
  have e2 : str "<" = [chr '<'] := rfl
  have e3 : str ">" = [chr '>'] := rfl
  have e4 : str "'" = [chr '\''] := rfl
  have e5 : str "\"" = [chr '\"'] := rfl
  simp only [EscapeXML, e1, e2, e3, e4, e5, ReplaceSubstring_single, Option.bind_eq_bind,
    Option.some_bind]

theorem EscapeXML_character : ∀ c : CChar,
    ((if c = chr '&' then str "&amp;" else [c]).flatMap fun c1 =>
      (if c1 = chr '<' then str "&lt;" else [c1]).flatMap fun c2 =>
        (if c2 = chr '>' then str "&gt;" else [c2]).flatMap fun c3 =>
          (if c3 = chr '\'' then str "&apos;" else [c3]).flatMap fun c4 =>
            if c4 = chr '\"' then str "&quot;" else [c4]) = EscapeXMLCharacter c := by
  decide!

theorem EscapeXMLCharacter_clean : ∀ c : CChar, ∀ b ∈ EscapeXMLCharacter c,
    b ≠ chr '<' ∧ b ≠ chr '>' ∧ b ≠ chr '\'' ∧ b ≠ chr '\"' := by
  have key : ∀ c : CChar, (EscapeXMLCharacter c).all (fun b =>
      !decide (b = chr '<') && !decide (b = chr '>') && !decide (b = chr '\'')
        && !decide (b = chr '\"')) = true := by
    decide!
  intro c b hb
  have h := List.all_eq_true.mp (key c) b hb
  simpa [and_assoc] using h

/-- C16: `EscapeXML` returns the entities and characters of the original text in
order, `&amp;` for the ampersand, `&lt;` and `&gt;` for the angle brackets,
`&apos;` and `&quot;` for the two quotes and any other character itself; the
ampersands of the entities are not escaped again, and the result holds neither
angle bracket nor quote. -/
theorem escapeXML_per_character (Unescaped : CString) :
    EscapeXML Unescaped = some (Unescaped.flatMap EscapeXMLCharacter) ∧
    (∀ b ∈ Unescaped.flatMap EscapeXMLCharacter,
      b ≠ chr '<' ∧ b ≠ chr '>' ∧ b ≠ chr '\'' ∧ b ≠ chr '\"') ∧
    (EscapeXMLCharacter (chr '&') = str "&amp;" ∧
      EscapeXMLCharacter (chr '<') = str "&lt;" ∧
      EscapeXMLCharacter (chr '>') = str "&gt;" ∧
      EscapeXMLCharacter (chr '\'') = str "&apos;" ∧
      EscapeXMLCharacter (chr '\"') = str "&quot;" ∧
      ∀ c : CChar, c ≠ chr '&' → c ≠ chr '<' → c ≠ chr '>' → c ≠ chr '\'' → c ≠ chr '\"' →
        EscapeXMLCharacter c = [c]) := by
  refine ⟨?_, fun b hb => ?_, by decide, by decide, by decide, by decide, by decide,
    fun c h1 h2 h3 h4 h5 => by simp [EscapeXMLCharacter, h1, h2, h3, h4, h5]⟩
  · rw [EscapeXML_eq_replacements]
    simp only [List.flatMap_assoc, EscapeXML_character]
  · obtain ⟨c, _, hc⟩ := List.mem_flatMap.mp hb
    exact EscapeXMLCharacter_clean c b hc

/-- C16, on a tag with an attribute and an ampersand. -/
theorem escapeXML_per_character_witness :
    EscapeXML (str "<a href='x'>&</a>")
      = some (str "&lt;a href=&apos;x&apos;&gt;&amp;&lt;/a&gt;") := by
  rw [(escapeXML_per_character (str "<a href='x'>&</a>")).1]
  decide

/-! ## EscapeCCharacter and EscapeCString -/

theorem escape_shape : ∀ c : CChar,
    (match EscapeCCharacter c with
      | [a] => decide (a = c) && !decide (a = chr '\\')
      | [a, b] => decide (a = chr '\\') && !decide (b = chr 'x') && decide (UnescapeLetter b = c)
      | [a, x, h, l] =>
        decide (a = chr '\\') && decide (x = chr 'x')
          && decide ((Fin.ofNat (16 * HexValue h + HexValue l) : CChar) = c)
      | _ => false) = true := by
  decide!

theorem UnescapeHead_escape (c : CChar) (r : CString) :
    UnescapeHead (EscapeCCharacter c ++ r) = some (c, r) := by
  have h := escape_shape c
  generalize EscapeCCharacter c = e at h
  rcases e with _ | ⟨a, _ | ⟨b, _ | ⟨x, _ | ⟨l, _ | ⟨y, t⟩⟩⟩⟩⟩
  · simp at h
  · simp only [Bool.and_eq_true, decide_eq_true_eq, Bool.not_eq_true', decide_eq_false_iff_not]
      at h
    obtain ⟨rfl, hne⟩ := h
    simp [UnescapeHead, hne]
  · simp only [Bool.and_eq_true, decide_eq_true_eq, Bool.not_eq_true', decide_eq_false_iff_not]
      at h
    obtain ⟨⟨rfl, hne⟩, rfl⟩ := h
    simp [UnescapeHead, hne]
  · simp at h
  · simp only [Bool.and_eq_true, decide_eq_true_eq] at h
    obtain ⟨⟨rfl, rfl⟩, rfl⟩ := h
    simp [UnescapeHead]
  · simp at h

theorem EscapeCCharacter_range : ∀ c : CChar,
    (EscapeCCharacter c).all (fun b => decide (1 ≤ b.val) && decide (b.val ≤ 127)) = true := by
  decide!

theorem EscapeCCharacter_high : ∀ c : CChar, 128 ≤ c.val →
    EscapeCCharacter c
      = [chr '\\', chr 'x', UpperHexDigit (c.val / 16), UpperHexDigit (c.val % 16)] := by
  decide!
theorem EscapeCString_eq (Text : CString) :
    EscapeCString Text = Text.flatMap EscapeCCharacter := by
  have key : ∀ (acc : CString), Text.foldl (fun Escaped c => Escaped ++ EscapeCCharacter c) acc
      = acc ++ Text.flatMap EscapeCCharacter := by
    induction Text with
    | nil => intro acc; simp
    | cons c rest ih => intro acc; simp [ih, List.append_assoc]
  simpa [EscapeCString] using key []

/-- C18: a character with its high bit set is escaped as the backslash, `x` and
the two uppercase hexadecimal digits of the value of its byte, the high nibble
first; the null character is escaped as `\x00`; and every character of an
escaped string has a value from 1 to 127. -/
theorem escape_is_numeric_and_ascii :
    (∀ c : CChar, 128 ≤ c.val →
      EscapeCCharacter c
        = [chr '\\', chr 'x', UpperHexDigit (c.val / 16), UpperHexDigit (c.val % 16)]) ∧
    EscapeCCharacter 0 = str "\\x00" ∧
    (∀ (Text : CString) (b : CChar), b ∈ EscapeCString Text → 1 ≤ b.val ∧ b.val ≤ 127) := by
  refine ⟨EscapeCCharacter_high, by decide, fun Text b hb => ?_⟩
  rw [EscapeCString_eq, List.mem_flatMap] at hb
  obtain ⟨c, _, hc⟩ := hb
  have h := List.all_eq_true.mp (EscapeCCharacter_range c) b hc
  simpa using h

/-- C18, for the character of value 200, escaped as `\xC8`. -/
theorem escape_is_numeric_and_ascii_witness :
    128 ≤ (200 : CChar).val ∧ EscapeCCharacter 200 = str "\\xC8" :=
  ⟨by decide, by
    rw [escape_is_numeric_and_ascii.1 200 (by decide)]
    decide⟩

theorem EscapeCString_cancel (s1 : CString) :
    ∀ s2 : CString, s1.flatMap EscapeCCharacter = s2.flatMap EscapeCCharacter → s1 = s2 := by
  induction s1 with
  | nil =>
    intro s2 h
    cases s2 with
    | nil => rfl
    | cons c2 r2 =>
      have hd := UnescapeHead_escape c2 (r2.flatMap EscapeCCharacter)
      simp only [List.flatMap_nil, List.flatMap_cons] at h
      rw [← h] at hd
      simp [UnescapeHead] at hd
  | cons c1 r1 ih =>
    intro s2 h
    cases s2 with
    | nil =>
      have hd := UnescapeHead_escape c1 (r1.flatMap EscapeCCharacter)
      simp only [List.flatMap_nil, List.flatMap_cons] at h
      rw [h] at hd
      simp [UnescapeHead] at hd
    | cons c2 r2 =>
      have hd1 := UnescapeHead_escape c1 (r1.flatMap EscapeCCharacter)
      have hd2 := UnescapeHead_escape c2 (r2.flatMap EscapeCCharacter)
      simp only [List.flatMap_cons] at h
      rw [h, hd2] at hd1
      simp only [Option.some.injEq, Prod.mk.injEq] at hd1
      obtain ⟨rfl, hrest⟩ := hd1
      rw [ih r2 hrest.symm]

/-- C20: `EscapeCString` is injective. The escapes of two different characters
are different, and no escape is the beginning of the escape of another
character, so the escape of a character can be read back at the head of any
text, whatever follows it. -/
theorem escapeCString_injective :
    (∀ s1 s2 : CString, EscapeCString s1 = EscapeCString s2 → s1 = s2) ∧
    (∀ c1 c2 : CChar, EscapeCCharacter c1 = EscapeCCharacter c2 → c1 = c2) ∧
    (∀ c1 c2 : CChar, EscapeCCharacter c1 <+: EscapeCCharacter c2 → c1 = c2) := by
  have hprefix : ∀ c1 c2 : CChar, EscapeCCharacter c1 <+: EscapeCCharacter c2 → c1 = c2 := by
    rintro c1 c2 ⟨t, ht⟩
    have hd1 := UnescapeHead_escape c1 (t ++ [])
    have hd2 := UnescapeHead_escape c2 []
    rw [← List.append_assoc, ht, hd2] at hd1
    simp only [Option.some.injEq, Prod.mk.injEq] at hd1
    exact hd1.1.symm
  refine ⟨fun s1 s2 h => ?_, fun c1 c2 h => hprefix c1 c2 (h ▸ List.prefix_refl _), hprefix⟩
  rw [EscapeCString_eq, EscapeCString_eq] at h
  exact EscapeCString_cancel s1 s2 h

/-- C20, for two texts with the same escape. -/
theorem escapeCString_injective_witness :
    EscapeCString [65, 0, 200] = EscapeCString ([65] ++ [0, 200]) ∧
      ([65, 0, 200] : CString) = [65] ++ [0, 200] :=
  ⟨rfl, escapeCString_injective.1 [65, 0, 200] ([65] ++ [0, 200]) rfl⟩
end CompilerInfrastructure
